import Mathlib

/-! # The multiplexed RPC client transport (`src/v/rpc/client.cc`)

A shallow embedding of `rpc::client`: the correlation table, the dispatch gate,
the memory semaphore, the socket and the background read loop are explicit
fields of one state record, every synchronous section of the C++ code is one
total function on that record, and the points where a future resolves later
(a network write finishing, a header arriving, a gate holder leaving) are
events of a step function.

Fields drop the leading underscore of the C++ members (`_fd` is `fd`,
`_correlations` is `correlations`, and so on).
-/

namespace rpc

/-! ## Data model -/

/-- Modulus of `uint32_t`, the type of `_correlation_idx`. -/
def u32 : Nat := 2 ^ 32

/-- The frame header `rpc::header`: payload size, correlation id, and the
remaining fields (which the transport does not look at) as one number. -/
structure header where
  size : Nat
  correlation_id : Nat
  bits : Nat
deriving DecidableEq, Repr

/-- An outgoing request buffer: the correlation id stamped in its header and the
byte size of its scattered view. -/
structure netbuf where
  correlation_id : Nat
  size : Nat
deriving DecidableEq, Repr

/-- The method `netbuf::set_correlation_id`. -/
def netbuf.set_correlation_id (b : netbuf) (idx : Nat) : netbuf :=
  { b with correlation_id := idx }

/-- The streaming context handed to a caller: `client_context_impl` keeps the
header it was built from. -/
structure client_context_impl where
  h : header
deriving DecidableEq, Repr

/-- The method `client_context_impl::get_header`. -/
def client_context_impl.get_header (ctx : client_context_impl) : header := ctx.h

/-- How a promise was fulfilled: `set_value(ctx)` or `set_exception(what)`. -/
inductive outcome where
  | value (ctx : client_context_impl)
  | exception (what : String)
deriving DecidableEq, Repr

/-- Calls made on the metrics probe `_probe`, in the order they happen. -/
inductive probe_event where
  | waiting_for_available_memory
  | connection_error
  | connection_established
  | connection_closed
  | read_dispatch_error
  | client_correlation_error
  | request_sent
  | add_bytes_sent (n : Nat)
  | header_corrupted
  | server_correlation_error
  | add_bytes_received (n : Nat)
  | request_completed
deriving DecidableEq, Repr

/-- A `connected_socket`: an identity and whether each half was shut down. -/
structure connected_socket where
  id : Nat
  input_shut : Bool
  output_shut : Bool
deriving DecidableEq, Repr

/-- What the two shutdown calls inside the `try` block of `client::shutdown` do:
both return, or `shutdown_input` throws, or `shutdown_output` throws. -/
inductive shutdown_outcome where
  | ok
  | input_throws
  | output_throws
deriving DecidableEq, Repr

/-- Modelled from the spec: the dispatch gate (`seastar::gate`, not part of the
sources) is a count of in-flight background tasks plus a closed flag (§3, §4.4). -/
structure gate where
  count : Nat
  stopped : Bool
deriving DecidableEq, Repr

/-- The value of `_dispatch_gate = {}`: a new gate, open, nothing inside. -/
def gate.fresh : gate := { count := 0, stopped := false }

/-- The method `gate::is_closed`. -/
def gate.is_closed (g : gate) : Bool := g.stopped

/-- Modelled from the spec: `enter()` on an open gate increments the in-flight
count; on a closed gate it fails (§4.4). Every call site below first looks at
`is_closed` and enters only an open gate. -/
def gate.enter (g : gate) : gate := { g with count := g.count + 1 }

/-- Modelled from the spec: dropping the token decrements the in-flight count. -/
def gate.leave (g : gate) : gate := { g with count := g.count - 1 }

/-- Modelled from the spec: `close()` flips the gate to closed; the future it
returns resolves once the in-flight count is zero (§4.4). -/
def gate.close (g : gate) : gate := { g with stopped := true }

/-- The future returned by `gate::close` has resolved. -/
def gate.drained (g : gate) : Bool := g.stopped && g.count == 0

/-- Modelled from the spec: the admission semaphore (`seastar::semaphore`, not part
of the sources): available units and the asks of suspended callers in arrival
order (§4.3). -/
structure semaphore where
  available : Nat
  waiters : List Nat
deriving DecidableEq, Repr

/-- Modelled from the spec: `wait(n)` grants at once when `n` units are available
and nobody is queued ahead; otherwise the caller is suspended at the back. -/
def semaphore.wait (s : semaphore) (n : Nat) : Bool × semaphore :=
  if s.waiters.isEmpty && decide (n ≤ s.available) then
    (true, { s with available := s.available - n })
  else
    (false, { s with waiters := s.waiters ++ [n] })

/-- Resume suspended callers in arrival order while the front one fits. -/
def semaphore.wake : Nat → List Nat → Nat × List Nat
  | avail, [] => (avail, [])
  | avail, n :: rest =>
    if n ≤ avail then semaphore.wake (avail - n) rest else (avail, n :: rest)

/-- Modelled from the spec: `signal(n)` returns `n` units and resumes callers in
arrival order once capacity frees. -/
def semaphore.signal (s : semaphore) (n : Nat) : semaphore :=
  let r := semaphore.wake (s.available + n) s.waiters
  { available := r.1, waiters := r.2 }

/-- Where a live background read loop `do_reads` is suspended: on `parse_header`,
or on the future that `dispatch` returned (the body of the reply being consumed). -/
inductive read_state where
  | awaiting_header
  | awaiting_body
deriving DecidableEq, Repr

/-! ## The correlation table

`_correlations` maps a correlation id to the promise registered under it. It is
kept as a list of (id, promise) pairs; the functions below are the three map
operations the client uses. -/

/-- The lookup `_correlations.find(k)`: the promise registered under `k`, if any. -/
def find : List (Nat × Nat) → Nat → Option Nat
  | [], _ => none
  | (k1, p) :: rest, k => if k1 = k then some p else find rest k

/-- The insertion `_correlations.emplace(k, p)`: inserts unless `k` is already a key. -/
def emplace (t : List (Nat × Nat)) (k p : Nat) : List (Nat × Nat) :=
  if (find t k).isSome then t else t ++ [(k, p)]

/-- The removal `_correlations.erase(it)` for the iterator `find` returned on `k`. -/
def erase : List (Nat × Nat) → Nat → List (Nat × Nat)
  | [], _ => []
  | (k1, p) :: rest, k => if k1 = k then rest else (k1, p) :: erase rest k

/-- The correlation ids that are keys of the table. -/
def keys (t : List (Nat × Nat)) : List Nat := t.map Prod.fst

/-- The promises held in the table. -/
def promises (t : List (Nat × Nat)) : List Nat := t.map Prod.snd

/-! ## The client -/

/-- The state of one `rpc::client`, together with the objects the C++ code keeps
outside the class: the promises it has fulfilled, the continuations that still
have to leave the gate, the writes in flight, the read loops and the sockets it
has destroyed. -/
structure client where
  /-- The configured budget `cfg.max_queued_bytes`. -/
  max_queued_bytes : Nat
  /-- The constant `sizeof(header)`. -/
  header_size : Nat
  /-- The semaphore `_memory`. -/
  memory : semaphore
  /-- The owning pointer `_fd`; `none` is the null pointer. -/
  fd : Option connected_socket
  /-- Whether the input stream `_in` has reached end of stream. -/
  in_eof : Bool
  /-- The frames handed to `_out.write`, oldest first. -/
  out : List netbuf
  /-- The counter `_correlation_idx`. -/
  correlation_idx : Nat
  /-- The table `_correlations`. -/
  correlations : List (Nat × Nat)
  /-- The gate `_dispatch_gate`. -/
  dispatch_gate : gate
  /-- The calls made on `_probe`, oldest first. -/
  probe : List probe_event
  /-- Promises are numbered in creation order; this is the next number. -/
  next_promise : Nat
  /-- Every `set_value` and `set_exception` performed so far, oldest first. -/
  completed : List (Nat × outcome)
  /-- Fulfilled requests whose `with_gate` continuation has not yet left the gate. -/
  leaves_due : Nat
  /-- Sizes of the background writes that have not finished, oldest first. -/
  writes : List Nat
  /-- The live read loops spawned by `do_connect`. -/
  readers : List read_state
  /-- Sockets are numbered in creation order; this is the next number. -/
  next_socket : Nat
  /-- Sockets destroyed so far, newest first, as they were when destroyed. -/
  released : List connected_socket
  /-- Calls of `connect()` that wait for the future of their `stop()`, taken on the
  gate now installed, and whose continuation has not run. -/
  stop_waiters : Nat
  /-- Calls of `connect()` whose `stop()` future resolved on a gate that has since
  been replaced, and whose continuation has not run. -/
  conts_ready : Nat
  /-- Calls of `do_connect()` that passed the check and await the network connect. -/
  connecting : Nat
deriving DecidableEq, Repr

/-- The constructor `client::client(cfg)`: `_memory` starts at
`cfg.max_queued_bytes`, no socket, an open empty gate, an empty table. -/
def client.init (max_queued_bytes header_size : Nat) : client :=
  { max_queued_bytes := max_queued_bytes
    header_size := header_size
    memory := { available := max_queued_bytes, waiters := [] }
    fd := none
    in_eof := false
    out := []
    correlation_idx := 0
    correlations := []
    dispatch_gate := gate.fresh
    probe := []
    next_promise := 0
    completed := []
    leaves_due := 0
    writes := []
    readers := []
    next_socket := 0
    released := []
    stop_waiters := 0
    conts_ready := 0
    connecting := 0 }

/-- Modelled from the spec: `is_valid()` is declared in `rpc/client.h`, which is
not part of the sources. The connection is Connected exactly while the client
holds a live socket (§3), and the read loop, which runs until the connection is
no longer Connected, stops at a truncated header (§4.1): a socket is held and
its input stream has not ended. -/
def client.is_valid (c : client) : Bool := c.fd.isSome && !c.in_eof

/-- The method `client::shutdown`. With no socket nothing happens. Otherwise the
`try` block shuts down both halves and resets `_fd`; when one of the two calls
throws, the rest of the block is skipped and the `catch` only logs. -/
def client.shutdown (c : client) (r : shutdown_outcome) : client :=
  match c.fd with
  | none => c
  | some s =>
    match r with
    | .ok =>
      { c with
        fd := none
        released := { s with input_shut := true, output_shut := true } :: c.released }
    | .input_throws => c
    | .output_throws => { c with fd := some { s with input_shut := true } }

/-- The method `client::fail_outstanding_futures`: shut the socket down, set an
exception on every promise in the table, clear the table. Each promise set has
a `with_gate` continuation from `send` that now has to leave the gate. -/
def client.fail_outstanding_futures (c : client) (r : shutdown_outcome) : client :=
  let c1 := c.shutdown r
  { c1 with
    completed := c1.completed ++
      (promises c1.correlations).map
        (fun p => (p, outcome.exception "failing outstanding futures"))
    leaves_due := c1.leaves_due + c1.correlations.length
    correlations := [] }

/-- The method `client::stop`: `fail_outstanding_futures()` and then
`_dispatch_gate.close()`. The returned future is the one of `close`. -/
def client.stop (c : client) (r : shutdown_outcome) : client :=
  let c1 := c.fail_outstanding_futures r
  { c1 with dispatch_gate := c1.dispatch_gate.close }

/-- The future returned by a `stop()` on the installed gate has resolved. -/
def client.stop_resolved (c : client) : Bool := c.dispatch_gate.drained

/-- The method `client::connect`, up to the future of `stop()` it awaits: `stop()`
runs and the continuation is attached to its future. -/
def client.connect (c : client) (r : shutdown_outcome) : client :=
  let c1 := c.stop r
  { c1 with stop_waiters := c1.stop_waiters + 1 }

/-- What `send` hands back: a failed future with its message, or the future of
the promise it registered, together with the correlation id it stamped. -/
inductive send_result where
  | failed (what : String)
  | pending (idx : Nat) (promise : Nat)
deriving DecidableEq, Repr

/-- The method `client::send`. A connection that is not valid or a closed gate
fails at once. Otherwise the body runs inside the gate: if the next id is
already a key the probe is told and the call throws, leaving the gate again;
else the counter is incremented (modulo `2^32`), a new promise is registered
under the new id (that entry keeps the gate entered until the promise is
fulfilled), the id is stamped into the buffer, and a background task that has
entered the gate a second time writes the buffer to `_out`. -/
def client.send (c : client) (b : netbuf) : send_result × client :=
  if !c.is_valid || c.dispatch_gate.is_closed then
    (.failed "cannot send payload with invalid connection", c)
  else
    let c1 := { c with dispatch_gate := c.dispatch_gate.enter }
    if (find c1.correlations ((c1.correlation_idx + 1) % u32)).isSome then
      (.failed "Invalid client state. Doubly registered correlation_id",
        { c1 with
          probe := c1.probe ++ [probe_event.client_correlation_error]
          dispatch_gate := c1.dispatch_gate.leave })
    else
      let idx := (c1.correlation_idx + 1) % u32
      let item := c1.next_promise
      let b1 := b.set_correlation_id idx
      (.pending idx item,
        { c1 with
          correlation_idx := idx
          next_promise := item + 1
          correlations := emplace c1.correlations idx item
          dispatch_gate := c1.dispatch_gate.enter
          out := c1.out ++ [b1]
          writes := c1.writes ++ [b1.size] })

/-- The method `client::dispatch`, up to the future it returns: `false` is the
failed future for an id that is not a key; `true` is the future of the new
context, after the entry was erased and its promise set to the context built
from `h`. -/
def client.dispatch (c : client) (h : header) : Bool × client :=
  match find c.correlations h.correlation_id with
  | none => (false, { c with probe := c.probe ++ [probe_event.server_correlation_error] })
  | some pr =>
    (true,
      { c with
        probe := c.probe ++ [probe_event.add_bytes_received (c.header_size + h.size)]
        correlations := erase c.correlations h.correlation_id
        completed := c.completed ++ [(pr, outcome.value { h := h })]
        leaves_due := c.leaves_due + 1 })

/-- The method `client::do_connect`, up to the network connect it awaits: with a
valid connection or a closed gate it fails at once; otherwise the connect is
started and its continuation runs when the network answers. -/
def client.do_connect (c : client) : Bool × client :=
  if c.is_valid || c.dispatch_gate.is_closed then
    (false, c)
  else
    (true, { c with connecting := c.connecting + 1 })

/-- The continuation of `do_connect` that runs once an awaited network connect
(and the TLS wrap) has finished; `net` says whether it produced a socket. Without
one the probe is told and the call fails. With one, the new socket replaces
`_fd` (a socket still held is destroyed by the assignment), the streams are
taken from it and the counter is reset; then one read loop is spawned inside the
gate, unless the gate has been closed meanwhile, in which case `with_gate`
throws and the call fails with the socket already installed. -/
def client.do_connect_continue (c : client) (net : Bool) : Bool × client :=
  if c.connecting = 0 then
    (false, c)
  else if !net then
    (false,
      { c with
        connecting := c.connecting - 1
        probe := c.probe ++ [probe_event.connection_error] })
  else if c.dispatch_gate.is_closed then
    (false,
      { c with
        connecting := c.connecting - 1
        fd := some { id := c.next_socket, input_shut := false, output_shut := false }
        next_socket := c.next_socket + 1
        released := c.fd.toList ++ c.released
        probe := c.probe ++ [probe_event.connection_established]
        in_eof := false
        out := []
        correlation_idx := 0 })
  else
    (true,
      { c with
        connecting := c.connecting - 1
        fd := some { id := c.next_socket, input_shut := false, output_shut := false }
        next_socket := c.next_socket + 1
        released := c.fd.toList ++ c.released
        probe := c.probe ++ [probe_event.connection_established]
        in_eof := false
        out := []
        correlation_idx := 0
        dispatch_gate := c.dispatch_gate.enter
        readers := c.readers ++ [read_state.awaiting_header] })

/-- The continuation that `client::connect` attaches to `stop()`: it installs a new
gate and calls `do_connect`. It runs for a call whose `stop()` future has
resolved: one that waits on the installed gate once that gate has drained (the
other calls waiting on that gate are resolved with it), or one whose gate was
replaced after it had drained. A call still waiting on a gate that is replaced
before it drained is never resumed. -/
def client.connect_continue (c : client) : Bool × client :=
  if c.dispatch_gate.drained && decide (0 < c.stop_waiters) then
    { c with
      dispatch_gate := gate.fresh
      conts_ready := c.conts_ready + (c.stop_waiters - 1)
      stop_waiters := 0 }.do_connect
  else if 0 < c.conts_ready then
    { c with
      dispatch_gate := gate.fresh
      conts_ready := c.conts_ready - 1
      stop_waiters := 0 }.do_connect
  else
    (false, c)

/-- Read loop `i` ends without an exception: the completion handler in
`do_connect` tells the probe, `f.get()` returns, and the loop leaves the gate. -/
def client.reads_done (c : client) (i : Nat) : client :=
  { c with
    probe := c.probe ++ [probe_event.connection_closed]
    dispatch_gate := c.dispatch_gate.leave
    readers := c.readers.eraseIdx i }

/-- Read loop `i` ends with an exception: the completion handler tells the probe,
`f.get()` throws, the `catch` runs `fail_outstanding_futures()` and reports the
error, and the loop leaves the gate. -/
def client.reads_failed (c : client) (i : Nat) (r : shutdown_outcome) : client :=
  let c1 := { c with probe := c.probe ++ [probe_event.connection_closed] }
  let c2 := c1.fail_outstanding_futures r
  { c2 with
    probe := c2.probe ++ [probe_event.read_dispatch_error]
    dispatch_gate := c2.dispatch_gate.leave
    readers := c2.readers.eraseIdx i }

/-- The stop condition of `do_until` in `do_reads`, evaluated after an action has
finished: `!is_valid()` ends the loop, otherwise the next `parse_header` starts. -/
def client.loop_check (c : client) (i : Nat) : client :=
  if !c.is_valid then c.reads_done i
  else { c with readers := c.readers.set i read_state.awaiting_header }

/-- The future of `parse_header` in read loop `i` resolves with `h`; `eof` says that
the read hit the end of the stream. No header: the probe is told and the action
is done. A header: `dispatch`, whose failure ends the loop with an exception. -/
def client.header_read (c : client) (i : Nat) (h : Option header) (eof : Bool)
    (r : shutdown_outcome) : client :=
  if c.readers.get? i = some read_state.awaiting_header then
    let c1 := { c with in_eof := c.in_eof || eof }
    match h with
    | none => { c1 with probe := c1.probe ++ [probe_event.header_corrupted] }.loop_check i
    | some hd =>
      match c1.dispatch hd with
      | (false, c2) => c2.reads_failed i r
      | (true, c2) => { c2 with readers := c2.readers.set i read_state.awaiting_body }
  else c

/-- The future of `parse_header` in read loop `i` fails (a socket read error). -/
def client.read_failed (c : client) (i : Nat) (r : shutdown_outcome) : client :=
  if c.readers.get? i = some read_state.awaiting_header then c.reads_failed i r else c

/-- The consumer of the reply calls `signal_body_parse` on the context read loop
`i` waits for: the continuation of `dispatch` tells the probe and the loop goes on. -/
def client.body_parsed (c : client) (i : Nat) : client :=
  if c.readers.get? i = some read_state.awaiting_body then
    { c with probe := c.probe ++ [probe_event.request_completed] }.loop_check i
  else c

/-- The oldest background write of `send` finishes; when it succeeded the probe
is told. Either way the task leaves the gate. -/
def client.write_done (c : client) (ok : Bool) : client :=
  match c.writes with
  | [] => c
  | msg_size :: rest =>
    { c with
      writes := rest
      probe := if ok then c.probe ++ [probe_event.request_sent, probe_event.add_bytes_sent msg_size] else c.probe
      dispatch_gate := c.dispatch_gate.leave }

/-- The scheduler runs the `with_gate` continuation of one fulfilled request. -/
def client.run_leave (c : client) : client :=
  if c.leaves_due = 0 then c
  else { c with leaves_due := c.leaves_due - 1, dispatch_gate := c.dispatch_gate.leave }

/-- The method `client_context_impl::reserve_memory`: take `ask` units from
`_memory`, and tell the probe when somebody is left waiting. The flag says
whether the returned future is ready. -/
def client.reserve_memory (c : client) (ask : Nat) : Bool × client :=
  let r := c.memory.wait ask
  (r.1,
    { c with
      memory := r.2
      probe := if r.2.waiters.isEmpty then c.probe
               else c.probe ++ [probe_event.waiting_for_available_memory] })

/-- The units of an earlier `reserve_memory` are destroyed: `n` units go back. -/
def client.release_memory (c : client) (n : Nat) : client :=
  { c with memory := c.memory.signal n }

/-! ## Runs of the client

Every synchronous section above is one event. A call of `connect()` is the
event `connect`; its continuation `connect_continue` runs once the future of
its `stop()` has resolved, and `do_connect_continue` once the network connect
that `do_connect` started has finished. Other events may happen in between. -/

/-- One atomic step of the client: a call from its owner, or a future resolving. -/
inductive event where
  | send (b : netbuf)
  | dispatch (h : header)
  | fail_outstanding_futures (r : shutdown_outcome)
  | stop (r : shutdown_outcome)
  | connect (r : shutdown_outcome)
  | connect_continue
  | do_connect_continue (net : Bool)
  | header_read (i : Nat) (h : Option header) (eof : Bool) (r : shutdown_outcome)
  | read_failed (i : Nat) (r : shutdown_outcome)
  | body_parsed (i : Nat)
  | write_done (ok : Bool)
  | run_leave
  | reserve_memory (ask : Nat)
  | release_memory (n : Nat)
deriving DecidableEq, Repr

/-- The effect of one event; an event that is not enabled changes nothing. -/
def client.step (c : client) : event → client
  | .send b => (c.send b).2
  | .dispatch h => (c.dispatch h).2
  | .fail_outstanding_futures r => c.fail_outstanding_futures r
  | .stop r => c.stop r
  | .connect r => c.connect r
  | .connect_continue => c.connect_continue.2
  | .do_connect_continue net => (c.do_connect_continue net).2
  | .header_read i h eof r => c.header_read i h eof r
  | .read_failed i r => c.read_failed i r
  | .body_parsed i => c.body_parsed i
  | .write_done ok => c.write_done ok
  | .run_leave => c.run_leave
  | .reserve_memory ask => (c.reserve_memory ask).2
  | .release_memory n => c.release_memory n

/-- The state after a sequence of events. -/
def client.run (c : client) (es : List event) : client := es.foldl client.step c

/-- A call of `connect()` that is awaited with nothing else going on: the call, the
background events `drain` that happen while the gate closes, the continuation,
and the network connect finishing right after it was started. -/
def client.connect_awaited (c : client) (r : shutdown_outcome) (drain : List event)
    (net : Bool) : client :=
  (((c.connect r).run drain).step .connect_continue).step (.do_connect_continue net)

/-! ## Invariants of reachable states -/

/-- The ids of the promises that have been fulfilled, oldest first. -/
def client.fulfilled (c : client) : List Nat := c.completed.map Prod.fst

/-- The promises still registered in the table. -/
def client.pending (c : client) : List Nat := promises c.correlations

/-- The two ways the client fulfils a promise: `set_value` with a context in
`dispatch`, `set_exception` with its fixed message in `fail_outstanding_futures`. -/
def outcome.set_by_client : outcome → Bool
  | .value _ => true
  | .exception what => what == "failing outstanding futures"

/-- Promise bookkeeping for a table `t`, a completion record `done` and `n`
promises created: table keys are distinct, no promise is registered twice or
fulfilled twice, the promises created so far are exactly the registered ones
together with the fulfilled ones, no promise being both, and every fulfilment
is one of the two the client performs. -/
def book_ok (t : List (Nat × Nat)) (done : List (Nat × outcome)) (n : Nat) : Prop :=
  (keys t).Nodup ∧
  (promises t).Nodup ∧
  (done.map Prod.fst).Nodup ∧
  (∀ p ∈ promises t, p < n ∧ p ∉ done.map Prod.fst) ∧
  (∀ p ∈ done.map Prod.fst, p < n) ∧
  (∀ p, p < n → p ∈ promises t ∨ p ∈ done.map Prod.fst) ∧
  (∀ e ∈ done, e.2.set_by_client = true)

instance (t : List (Nat × Nat)) (done : List (Nat × outcome)) (n : Nat) :
    Decidable (book_ok t done n) := by
  unfold book_ok
  infer_instance

/-- The promise bookkeeping of a client state. -/
def client.promises_ok (c : client) : Prop :=
  book_ok c.correlations c.completed c.next_promise

instance (c : client) : Decidable c.promises_ok := by
  unfold client.promises_ok
  infer_instance

/-- Gate bookkeeping: the in-flight count of the dispatch gate is the number of
registered requests, plus the fulfilled requests whose continuation has not run,
plus the writes in flight, plus the live read loops. -/
def client.gate_ok (c : client) : Prop :=
  c.dispatch_gate.count =
    c.correlations.length + c.leaves_due + c.writes.length + c.readers.length

instance (c : client) : Decidable c.gate_ok := by
  unfold client.gate_ok
  infer_instance

/-! ## Definitions used by the statements -/

/-- Whether event `e`, taken in state `c`, is a network connect of `do_connect`
finishing with a socket: the step that installs the socket and resets
`_correlation_idx`. -/
def event.connects (c : client) : event → Bool
  | .do_connect_continue net => net && decide (0 < c.connecting)
  | _ => false

/-- Whether an event is a call of `connect()` or one of its two continuations. -/
def event.is_connect : event → Bool
  | .connect _ => true
  | .connect_continue => true
  | .do_connect_continue _ => true
  | _ => false

/-- No call of `connect()` is in flight: none awaits its `stop()`, none awaits the
network. -/
def client.idle (c : client) : Bool :=
  c.stop_waiters == 0 && c.conts_ready == 0 && c.connecting == 0

/-- The calls of `connect()` in the sequence, taken from state `c` on, do not
overlap: each is made while no other call of `connect()` is in flight. -/
def client.sequential (c : client) : List event → Bool
  | [] => true
  | e :: es =>
    (match e with
     | .connect _ => c.idle
     | _ => true) && (c.step e).sequential es

/-- The background events that let every task inside the gate finish: the
continuations of the fulfilled requests run, the writes in flight complete, and
each read loop is signalled the body it waits for and then reads the end of the
stream. -/
def client.drain_script (c : client) : List event :=
  List.replicate c.leaves_due .run_leave ++
  List.replicate c.writes.length (.write_done false) ++
  (List.replicate c.readers.length
    [event.body_parsed 0, event.header_read 0 none true .ok]).flatten

/-- A call of `connect()` from state `c` gets as far as the network connect: after
the background events `drain` the future of its `stop()` has resolved, its
continuation runs and the check of `do_connect` passes. -/
def client.connect_ok (c : client) (r : shutdown_outcome) (drain : List event) : Bool :=
  ((c.connect r).run drain).connect_continue.1

/-- The state a successful `connect()` leaves: a new open gate holding exactly one
task, the read loop, which awaits a header; a live socket, the newest one, with
neither half shut down; the counter at zero; an empty table; nothing written,
nothing in flight, nothing left to leave the gate, no `connect()` in flight. -/
def client.freshly_connected (c : client) : Prop :=
  c.dispatch_gate = { count := 1, stopped := false } ∧
  c.fd = some { id := c.next_socket - 1, input_shut := false, output_shut := false } ∧
  0 < c.next_socket ∧
  c.readers = [read_state.awaiting_header] ∧
  c.correlation_idx = 0 ∧
  c.correlations = [] ∧
  c.leaves_due = 0 ∧
  c.writes = [] ∧
  c.out = [] ∧
  c.in_eof = false ∧
  c.idle = true

/-- Orderly connects: the gate bookkeeping is sound, at most one call of
`connect()` is in flight, and while its network connect is awaited the
connection is not valid and the table is empty. -/
def client.orderly (c : client) : Prop :=
  c.gate_ok ∧
  c.conts_ready = 0 ∧
  c.stop_waiters + c.connecting ≤ 1 ∧
  (0 < c.connecting → c.is_valid = false ∧ c.correlations = [])

instance (c : client) : Decidable c.orderly := by
  unfold client.orderly
  infer_instance

/-- Socket bookkeeping: every socket created so far is the one held or has been
destroyed, and the one held has not been destroyed. -/
def client.sockets_ok (c : client) : Prop :=
  (∀ id, id < c.next_socket →
    c.fd.map connected_socket.id = some id ∨ id ∈ c.released.map connected_socket.id) ∧
  (∀ s, c.fd = some s → s.id < c.next_socket ∧ s.id ∉ c.released.map connected_socket.id) ∧
  (∀ id ∈ c.released.map connected_socket.id, id < c.next_socket)

instance (c : client) : Decidable c.freshly_connected := by
  unfold client.freshly_connected
  infer_instance

/-- The socket `s` after both halves have been shut down. -/
def connected_socket.shut (s : connected_socket) : connected_socket :=
  { s with input_shut := true, output_shut := true }

/-- Whether event `e`, taken in state `c`, is a `send` that registers a request. -/
def event.registers (c : client) : event → Bool
  | .send b =>
    match (c.send b).1 with
    | .pending _ _ => true
    | .failed _ => false
  | _ => false

/-- The number of sends that have succeeded since a connect last installed a socket
(and reset the counter), after the events `es` taken from state `c` on, when `n`
had succeeded before. -/
def client.sends_since_connect (c : client) (n : Nat) : List event → Nat
  | [] => n
  | e :: es =>
    (c.step e).sends_since_connect
      (if e.connects c then 0 else if e.registers c then n + 1 else n) es

/-- Modelled from the spec: `try_wait(n)` is the form of `wait(n)` that never
suspends: it takes the units under the condition of `wait` and says whether it
did (`seastar::semaphore` is not part of the sources, §4.3). -/
def semaphore.try_wait (s : semaphore) (n : Nat) : Bool × semaphore :=
  if s.waiters.isEmpty && decide (n ≤ s.available) then
    (true, { s with available := s.available - n })
  else
    (false, s)

end rpc

/-! ## The ApiVersions handler (`src/v/kafka/requests/requests.cc`) -/

namespace kafka

/-- The two values of `error_code` that `api_versions_api::process` writes. -/
inductive error_code where
  | none
  | unsupported_version
deriving DecidableEq, Repr

/-- The struct `api_support`: three `int16_t` fields. -/
structure api_support where
  key : Int
  min_supported : Int
  max_supported : Int
deriving DecidableEq, Repr

/-- One call made on the `response_writer`, in the order the calls happen. For
`write_array` the entry lists, element by element, the `int16_t` values the
element writer wrote. -/
inductive written where
  | error_code (e : error_code)
  | int16 (v : Int)
  | int32 (v : Int)
  | array (elements : List (List Int))
deriving DecidableEq, Repr

/-- The function `serialize_apis`: one `api_support` per entry of the type list,
in list order, written as an array whose element writer writes `key`,
`min_supported`, `max_supported`. The entries of `request_types` are declared in
headers that are not part of the sources, so the list is an argument. -/
def serialize_apis (request_types : List api_support) : List written :=
  [.array (request_types.map fun api => [api.key, api.min_supported, api.max_supported])]

/-- The function `api_versions_api::process`, as the calls it makes on the writer of
the response. The constants `max_supported` and `v0` of `api_versions_api` are
declared in a header that is not part of the sources, so they are arguments;
`version` is `ctx.header().version`. -/
def process (max_supported v0 : Int) (request_types : List api_support) (version : Int) :
    List written :=
  let code := if version > max_supported then error_code.unsupported_version
    else error_code.none
  [written.error_code code] ++
  (if code = error_code.none then serialize_apis request_types
   else [written.array []]) ++
  (if version > v0 then [written.int32 0] else [])

/-- The response of the v0 schema: the error code followed by the API array and
no further field. -/
def v0_schema (e : error_code) (apis : List api_support) : List written :=
  [.error_code e,
   .array (apis.map fun api => [api.key, api.min_supported, api.max_supported])]

end kafka

/-! ## Wait or start (`src/v/pandaproxy/client/client.h`) -/

namespace pandaproxy.client

/-- The class `wait_or_start`: the semaphore `_lock`, together with the number of
instances of `_func` that have been started and have not finished. -/
structure wait_or_start where
  lock : rpc.semaphore
  running : Nat
deriving DecidableEq, Repr

/-- The constructor: `_lock{1}`, nothing running. -/
def wait_or_start.init : wait_or_start :=
  { lock := { available := 1, waiters := [] }, running := 0 }

/-- What a call of `operator()` does: it starts the function, which returns a
future; or it starts the function, which throws before it returns a future; or
it returns the future of `_lock.wait()`, which is still pending or already
resolved. -/
inductive called where
  | started
  | threw
  | waiting
  | resolved
deriving DecidableEq, Repr

/-- The method `wait_or_start::operator()`: when `try_wait()` takes the unit,
`_func` is called; `throws` says whether that call throws instead of returning
a future, in which case the exception leaves `operator()` before `finally` is
attached. When `try_wait()` does not take the unit the caller gets the future of
`_lock.wait()`. -/
def wait_or_start.call (w : wait_or_start) (throws : Bool) : called × wait_or_start :=
  if (w.lock.try_wait 1).1 then
    if throws then
      (.threw, { w with lock := (w.lock.try_wait 1).2 })
    else
      (.started, { lock := (w.lock.try_wait 1).2, running := w.running + 1 })
  else
    (if (w.lock.wait 1).1 then .resolved else .waiting, { w with lock := (w.lock.wait 1).2 })

/-- The future of a running instance of the function resolves, with a value or
with an error: the `finally` continuation runs `_lock.signal(_lock.waiters() + 1)`. -/
def wait_or_start.finish (w : wait_or_start) : wait_or_start :=
  if w.running = 0 then w
  else
    { lock := w.lock.signal (w.lock.waiters.length + 1)
      running := w.running - 1 }

/-- One step: a call of `operator()`, in which `_func` throws or not if it is
called, or the future of a running instance resolving, with or without an error. -/
inductive action where
  | call (throws : Bool)
  | finish (failed : Bool)
deriving DecidableEq, Repr

/-- The effect of one step. -/
def wait_or_start.step (w : wait_or_start) : action → wait_or_start
  | .call throws => (w.call throws).2
  | .finish _ => w.finish

/-- The state after a sequence of steps. -/
def wait_or_start.run (w : wait_or_start) (as : List action) : wait_or_start :=
  as.foldl wait_or_start.step w

end pandaproxy.client

namespace rpc

/-! # Lemmas -/

theorem find_eq_none_iff (t : List (Nat × Nat)) (k : Nat) :
    find t k = none ↔ k ∉ keys t := by
  induction t with
  | nil => simp [find, keys]
  | cons e rest ih =>
    obtain ⟨k1, p⟩ := e
    by_cases hk : k1 = k
    · simp [find, keys, hk]
    · have hk2 : ¬ k = k1 := fun h => hk h.symm
      simp [find, hk, hk2, keys] at ih ⊢
      exact ih

theorem perm_erase_of_find (t : List (Nat × Nat)) (k p : Nat) (h : find t k = some p) :
    t.Perm ((k, p) :: erase t k) := by
  induction t with
  | nil => simp [find] at h
  | cons e rest ih =>
    obtain ⟨k1, p1⟩ := e
    by_cases hk : k1 = k
    · simp [find, hk] at h
      simp [erase, hk, h]
    · simp [find, hk] at h
      simp only [erase, hk, if_false]
      exact (List.Perm.cons _ (ih h)).trans (List.Perm.swap _ _ _)

theorem emplace_of_find_none (t : List (Nat × Nat)) (k p : Nat) (h : find t k = none) :
    emplace t k p = t ++ [(k, p)] := by
  simp [emplace, h]

theorem length_erase_of_find (t : List (Nat × Nat)) (k p : Nat) (h : find t k = some p) :
    (erase t k).length + 1 = t.length := by
  have := (perm_erase_of_find t k p h).length_eq
  simp at this
  omega

theorem keys_perm_of_find (t : List (Nat × Nat)) (k p : Nat) (h : find t k = some p) :
    (keys t).Perm (k :: keys (erase t k)) := by
  have := (perm_erase_of_find t k p h).map Prod.fst
  simpa [keys] using this

theorem promises_perm_of_find (t : List (Nat × Nat)) (k p : Nat) (h : find t k = some p) :
    (promises t).Perm (p :: promises (erase t k)) := by
  have := (perm_erase_of_find t k p h).map Prod.snd
  simpa [promises] using this


theorem gate_ok_init (m hs : Nat) : (client.init m hs).gate_ok := by
  simp [client.gate_ok, client.init, gate.fresh]

theorem gate_ok_fail (c : client) (r : shutdown_outcome) (h : c.gate_ok) :
    (c.fail_outstanding_futures r).gate_ok := by
  unfold client.gate_ok at *
  unfold client.fail_outstanding_futures client.shutdown
  cases hfd : c.fd <;> cases r <;> simp [h] <;> omega

theorem send_invalid (c : client) (b : netbuf)
    (h : c.is_valid = false ∨ c.dispatch_gate.stopped = true) :
    c.send b = (.failed "cannot send payload with invalid connection", c) := by
  unfold client.send
  rcases h with h | h <;> simp [h, gate.is_closed]

theorem send_collision (c : client) (b : netbuf) (hv : c.is_valid = true)
    (hg : c.dispatch_gate.stopped = false) (p : Nat)
    (hf : find c.correlations ((c.correlation_idx + 1) % u32) = some p) :
    c.send b = (.failed "Invalid client state. Doubly registered correlation_id",
      { c with probe := c.probe ++ [probe_event.client_correlation_error] }) := by
  unfold client.send
  simp [hv, hg, hf, gate.is_closed, gate.enter, gate.leave]
  cases hgate : c.dispatch_gate with
  | mk count stopped =>
    rw [hgate] at hg
    simp at hg
    simp [hg]

theorem send_fresh (c : client) (b : netbuf) (hv : c.is_valid = true)
    (hg : c.dispatch_gate.stopped = false)
    (hf : find c.correlations ((c.correlation_idx + 1) % u32) = none) :
    c.send b = (.pending ((c.correlation_idx + 1) % u32) c.next_promise,
      { c with
        correlation_idx := (c.correlation_idx + 1) % u32
        next_promise := c.next_promise + 1
        correlations := c.correlations ++ [((c.correlation_idx + 1) % u32, c.next_promise)]
        dispatch_gate := { count := c.dispatch_gate.count + 2, stopped := false }
        out := c.out ++ [b.set_correlation_id ((c.correlation_idx + 1) % u32)]
        writes := c.writes ++ [b.size] }) := by
  unfold client.send
  simp [hv, hg, hf, gate.is_closed, gate.enter, emplace, netbuf.set_correlation_id]

theorem send_cases (c : client) :
    (c.is_valid = false ∨ c.dispatch_gate.stopped = true) ∨
    (c.is_valid = true ∧ c.dispatch_gate.stopped = false ∧
      ∃ p, find c.correlations ((c.correlation_idx + 1) % u32) = some p) ∨
    (c.is_valid = true ∧ c.dispatch_gate.stopped = false ∧
      find c.correlations ((c.correlation_idx + 1) % u32) = none) := by
  cases hv : c.is_valid <;> cases hg : c.dispatch_gate.stopped <;> simp
  cases hf : find c.correlations ((c.correlation_idx + 1) % u32) <;> simp

theorem gate_ok_send (c : client) (b : netbuf) (h : c.gate_ok) : (c.send b).2.gate_ok := by
  rcases send_cases c with h1 | ⟨hv, hg, p, hf⟩ | ⟨hv, hg, hf⟩
  · rw [send_invalid c b h1]; exact h
  · rw [send_collision c b hv hg p hf]; exact h
  · rw [send_fresh c b hv hg hf]
    unfold client.gate_ok at *
    simp [h]
    omega

theorem dispatch_unknown (c : client) (hd : header)
    (hf : find c.correlations hd.correlation_id = none) :
    c.dispatch hd =
      (false, { c with probe := c.probe ++ [probe_event.server_correlation_error] }) := by
  unfold client.dispatch
  simp [hf]

theorem dispatch_known (c : client) (hd : header) (pr : Nat)
    (hf : find c.correlations hd.correlation_id = some pr) :
    c.dispatch hd =
      (true,
        { c with
          probe := c.probe ++ [probe_event.add_bytes_received (c.header_size + hd.size)]
          correlations := erase c.correlations hd.correlation_id
          completed := c.completed ++ [(pr, outcome.value { h := hd })]
          leaves_due := c.leaves_due + 1 }) := by
  unfold client.dispatch
  simp [hf]

theorem gate_ok_dispatch (c : client) (hd : header) (h : c.gate_ok) :
    (c.dispatch hd).2.gate_ok := by
  cases hf : find c.correlations hd.correlation_id with
  | none => rw [dispatch_unknown c hd hf]; exact h
  | some pr =>
    rw [dispatch_known c hd pr hf]
    have := length_erase_of_find _ _ _ hf
    unfold client.gate_ok at *
    simp [h]
    omega

theorem gate_ok_stop (c : client) (r : shutdown_outcome) (h : c.gate_ok) :
    (c.stop r).gate_ok := by
  have := gate_ok_fail c r h
  unfold client.gate_ok at *
  simpa [client.stop, gate.close] using this

theorem gate_ok_connect (c : client) (r : shutdown_outcome) (h : c.gate_ok) :
    (c.connect r).gate_ok := by
  have := gate_ok_stop c r h
  unfold client.gate_ok at *
  simpa [client.connect] using this

theorem gate_ok_do_connect (c : client) (h : c.gate_ok) : c.do_connect.2.gate_ok := by
  unfold client.do_connect
  split
  · exact h
  · exact h

theorem gate_ok_do_connect_continue (c : client) (net : Bool) (h : c.gate_ok) :
    (c.do_connect_continue net).2.gate_ok := by
  unfold client.do_connect_continue
  split
  · exact h
  · split
    · exact h
    · split
      · exact h
      · unfold client.gate_ok at *
        simp [gate.enter, h]
        omega

theorem empty_of_drained (c : client) (h : c.gate_ok) (hd : c.dispatch_gate.drained = true) :
    c.correlations = [] ∧ c.leaves_due = 0 ∧ c.writes = [] ∧ c.readers = [] := by
  unfold client.gate_ok at h
  simp [gate.drained] at hd
  have h0 : c.correlations.length = 0 ∧ c.leaves_due = 0 ∧ c.writes.length = 0 ∧
      c.readers.length = 0 := by omega
  exact ⟨List.eq_nil_of_length_eq_zero h0.1, h0.2.1, List.eq_nil_of_length_eq_zero h0.2.2.1,
    List.eq_nil_of_length_eq_zero h0.2.2.2⟩

theorem gate_ok_connect_continue (c : client) (h : c.gate_ok) (hr : c.conts_ready = 0) :
    c.connect_continue.2.gate_ok := by
  unfold client.connect_continue
  split
  · rename_i hd
    simp only [Bool.and_eq_true] at hd
    obtain ⟨h1, h2, h3, h4⟩ := empty_of_drained c h hd.1
    apply gate_ok_do_connect
    unfold client.gate_ok
    simp [gate.fresh, h1, h2, h3, h4]
  · split
    · omega
    · exact h

theorem gate_ok_reads_done (c : client) (i : Nat) (h : c.gate_ok) (hi : i < c.readers.length) :
    (c.reads_done i).gate_ok := by
  unfold client.gate_ok at *
  simp [client.reads_done, gate.leave, List.length_eraseIdx, hi, h]
  omega

theorem gate_ok_reads_failed (c : client) (i : Nat) (r : shutdown_outcome) (h : c.gate_ok)
    (hi : i < c.readers.length) : (c.reads_failed i r).gate_ok := by
  have h1 : ({ c with probe := c.probe ++ [probe_event.connection_closed] } : client).gate_ok := h
  have h2 := gate_ok_fail _ r h1
  have hr : (({ c with probe := c.probe ++ [probe_event.connection_closed] } :
      client).fail_outstanding_futures r).readers = c.readers := by
    unfold client.fail_outstanding_futures client.shutdown
    cases c.fd <;> cases r <;> rfl
  unfold client.gate_ok at h2 ⊢
  simp only [client.reads_failed, gate.leave, List.length_eraseIdx, hr, hi, if_true]
  rw [h2, hr]
  omega

theorem gate_ok_loop_check (c : client) (i : Nat) (h : c.gate_ok) (hi : i < c.readers.length) :
    (c.loop_check i).gate_ok := by
  unfold client.loop_check
  split
  · exact gate_ok_reads_done c i h hi
  · unfold client.gate_ok at *
    simpa using h

theorem lt_of_get?_eq_some {α : Type} (l : List α) (i : Nat) (a : α) (h : l.get? i = some a) :
    i < l.length := by
  by_contra hn
  have : l.get? i = none := by simp; omega
  rw [this] at h
  cases h

theorem gate_ok_header_read (c : client) (i : Nat) (hd : Option header) (eof : Bool)
    (r : shutdown_outcome) (h : c.gate_ok) : (c.header_read i hd eof r).gate_ok := by
  unfold client.header_read
  split
  · rename_i hg
    have hi := lt_of_get?_eq_some _ _ _ hg
    cases hd with
    | none => exact gate_ok_loop_check _ i h hi
    | some x =>
      have h1 : ({ c with in_eof := c.in_eof || eof } : client).gate_ok := h
      have h2 := gate_ok_dispatch _ x h1
      have hr : (({ c with in_eof := c.in_eof || eof } : client).dispatch x).2.readers
          = c.readers := by
        unfold client.dispatch
        split <;> rfl
      simp only
      split
      · rename_i c2 heq
        rw [heq] at h2 hr
        exact gate_ok_reads_failed c2 i r h2 (by rw [hr]; exact hi)
      · rename_i c2 heq
        rw [heq] at h2 hr
        unfold client.gate_ok at *
        simpa using h2
  · exact h

theorem gate_ok_read_failed (c : client) (i : Nat) (r : shutdown_outcome) (h : c.gate_ok) :
    (c.read_failed i r).gate_ok := by
  unfold client.read_failed
  split
  · rename_i hg
    exact gate_ok_reads_failed c i r h (lt_of_get?_eq_some _ _ _ hg)
  · exact h

theorem gate_ok_body_parsed (c : client) (i : Nat) (h : c.gate_ok) :
    (c.body_parsed i).gate_ok := by
  unfold client.body_parsed
  split
  · rename_i hg
    exact gate_ok_loop_check _ i h (lt_of_get?_eq_some _ _ _ hg)
  · exact h

theorem gate_ok_write_done (c : client) (ok : Bool) (h : c.gate_ok) :
    (c.write_done ok).gate_ok := by
  unfold client.write_done
  split
  · exact h
  · rename_i n rest hw
    unfold client.gate_ok at *
    simp [gate.leave, h, hw]
    omega

theorem promises_ok_init (m hs : Nat) : (client.init m hs).promises_ok := by
  simp [client.promises_ok, book_ok, client.init, keys, promises]

theorem promises_ok_congr (c d : client) (h1 : d.correlations = c.correlations)
    (h2 : d.completed = c.completed) (h3 : d.next_promise = c.next_promise)
    (h : c.promises_ok) : d.promises_ok := by
  unfold client.promises_ok at *
  rw [h1, h2, h3]
  exact h

theorem book_ok_register (t : List (Nat × Nat)) (done : List (Nat × outcome)) (n k : Nat)
    (hk : k ∉ keys t) (h : book_ok t done n) : book_ok (t ++ [(k, n)]) done (n + 1) := by
  obtain ⟨a1, a2, a3, a4, a5, a6, a7⟩ := h
  refine ⟨?_, ?_, a3, ?_, ?_, ?_, a7⟩
  · simp only [keys, List.map_append, List.map_cons, List.map_nil] at hk ⊢
    rw [List.nodup_append]
    refine ⟨a1, List.nodup_singleton _, ?_⟩
    intro x hx hx2
    simp at hx2
    subst hx2
    exact hk hx
  · simp only [promises, List.map_append, List.map_cons, List.map_nil]
    rw [List.nodup_append]
    refine ⟨a2, List.nodup_singleton _, ?_⟩
    intro x hx hx2
    simp at hx2
    subst hx2
    exact absurd (a4 _ hx).1 (lt_irrefl _)
  · intro p hp
    simp only [promises, List.map_append, List.map_cons, List.map_nil, List.mem_append,
      List.mem_singleton] at hp
    rcases hp with hp | hp
    · exact ⟨Nat.lt_succ_of_lt (a4 p hp).1, (a4 p hp).2⟩
    · subst hp
      exact ⟨Nat.lt_succ_self _, fun hc => absurd (a5 _ hc) (lt_irrefl _)⟩
  · intro p hp
    exact Nat.lt_succ_of_lt (a5 p hp)
  · intro p hp
    simp only [promises, List.map_append, List.map_cons, List.map_nil, List.mem_append,
      List.mem_singleton]
    rcases Nat.lt_succ_iff_lt_or_eq.mp hp with hlt | heq
    · rcases a6 p hlt with h6 | h6
      · exact Or.inl (Or.inl h6)
      · exact Or.inr h6
    · exact Or.inl (Or.inr heq)

theorem book_ok_fulfil (t : List (Nat × Nat)) (done : List (Nat × outcome)) (n k pr : Nat)
    (o : outcome) (ho : o.set_by_client = true) (hf : find t k = some pr)
    (h : book_ok t done n) : book_ok (erase t k) (done ++ [(pr, o)]) n := by
  have hk := keys_perm_of_find _ _ _ hf
  have hp := promises_perm_of_find _ _ _ hf
  obtain ⟨a1, a2, a3, a4, a5, a6, a7⟩ := h
  have b1 := (hk.nodup_iff).mp a1
  have b2 := (hp.nodup_iff).mp a2
  rw [List.nodup_cons] at b1 b2
  have hpr : pr ∈ promises t := hp.mem_iff.mpr (List.mem_cons_self _ _)
  refine ⟨b1.2, b2.2, ?_, ?_, ?_, ?_, ?_⟩
  rotate_right
  · intro e he
    rcases List.mem_append.mp he with he | he
    · exact a7 e he
    · simp at he
      subst he
      exact ho
  · simp only [List.map_append, List.map_cons, List.map_nil]
    rw [List.nodup_append]
    refine ⟨a3, List.nodup_singleton _, ?_⟩
    intro x hx hx2
    simp at hx2
    subst hx2
    exact (a4 _ hpr).2 hx
  · intro p hp2
    have hmem : p ∈ promises t := hp.mem_iff.mpr (List.mem_cons_of_mem _ hp2)
    refine ⟨(a4 p hmem).1, ?_⟩
    simp only [List.map_append, List.map_cons, List.map_nil, List.mem_append,
      List.mem_singleton, not_or]
    refine ⟨(a4 p hmem).2, ?_⟩
    intro heq
    subst heq
    exact b2.1 hp2
  · intro p hp2
    simp only [List.map_append, List.map_cons, List.map_nil, List.mem_append,
      List.mem_singleton] at hp2
    rcases hp2 with hp2 | hp2
    · exact a5 p hp2
    · subst hp2
      exact (a4 _ hpr).1
  · intro p hlt
    simp only [List.map_append, List.map_cons, List.map_nil, List.mem_append,
      List.mem_singleton]
    rcases a6 p hlt with h6 | h6
    · have := hp.mem_iff.mp h6
      rcases List.mem_cons.mp this with h7 | h7
      · exact Or.inr (Or.inr h7)
      · exact Or.inl h7
    · exact Or.inr (Or.inl h6)

theorem map_fst_failed (ps : List Nat) (o : outcome) :
    List.map Prod.fst (List.map (fun p => (p, o)) ps) = ps := by
  simp [List.map_map, Function.comp_def]

theorem book_ok_fail (t : List (Nat × Nat)) (done : List (Nat × outcome)) (n : Nat)
    (o : outcome) (ho : o.set_by_client = true) (h : book_ok t done n) :
    book_ok [] (done ++ (promises t).map (fun p => (p, o))) n := by
  obtain ⟨a1, a2, a3, a4, a5, a6, a7⟩ := h
  unfold book_ok
  simp only [List.map_append, map_fst_failed]
  refine ⟨by simp [keys], by simp [promises], ?_, by simp [promises], ?_, ?_, ?_⟩
  rotate_right
  · intro e he
    rcases List.mem_append.mp he with he | he
    · exact a7 e he
    · simp at he
      obtain ⟨q, _, hq⟩ := he
      subst hq
      exact ho
  · rw [List.nodup_append]
    refine ⟨a3, a2, ?_⟩
    intro x hx hx2
    exact (a4 x hx2).2 hx
  · intro p hp
    rcases List.mem_append.mp hp with hp | hp
    · exact a5 p hp
    · exact (a4 p hp).1
  · intro p hlt
    right
    rcases a6 p hlt with h6 | h6
    · exact List.mem_append.mpr (Or.inr h6)
    · exact List.mem_append.mpr (Or.inl h6)

theorem promises_ok_send (c : client) (b : netbuf) (h : c.promises_ok) :
    (c.send b).2.promises_ok := by
  rcases send_cases c with h1 | ⟨hv, hg, p, hf⟩ | ⟨hv, hg, hf⟩
  · rw [send_invalid c b h1]; exact h
  · rw [send_collision c b hv hg p hf]; exact h
  · rw [send_fresh c b hv hg hf]
    exact book_ok_register _ _ _ _ ((find_eq_none_iff _ _).mp hf) h

theorem promises_ok_dispatch (c : client) (hd : header) (h : c.promises_ok) :
    (c.dispatch hd).2.promises_ok := by
  cases hf : find c.correlations hd.correlation_id with
  | none => rw [dispatch_unknown c hd hf]; exact h
  | some pr =>
    rw [dispatch_known c hd pr hf]
    exact book_ok_fulfil _ _ _ _ _ _ rfl hf h

theorem shutdown_book (c : client) (r : shutdown_outcome) :
    (c.shutdown r).correlations = c.correlations ∧ (c.shutdown r).completed = c.completed ∧
    (c.shutdown r).next_promise = c.next_promise := by
  unfold client.shutdown
  cases c.fd <;> cases r <;> simp

theorem fail_book (c : client) (r : shutdown_outcome) :
    (c.fail_outstanding_futures r).correlations = [] ∧
    (c.fail_outstanding_futures r).completed = c.completed ++
      (promises c.correlations).map (fun p => (p, outcome.exception "failing outstanding futures")) ∧
    (c.fail_outstanding_futures r).next_promise = c.next_promise := by
  obtain ⟨h1, h2, h3⟩ := shutdown_book c r
  simp [client.fail_outstanding_futures, h1, h2, h3]

theorem promises_ok_fail (c : client) (r : shutdown_outcome) (h : c.promises_ok) :
    (c.fail_outstanding_futures r).promises_ok := by
  obtain ⟨h1, h2, h3⟩ := fail_book c r
  unfold client.promises_ok at *
  rw [h1, h2, h3]
  exact book_ok_fail _ _ _ _ (by decide) h

theorem promises_ok_stop (c : client) (r : shutdown_outcome) (h : c.promises_ok) :
    (c.stop r).promises_ok :=
  promises_ok_congr (c.fail_outstanding_futures r) _ rfl rfl rfl (promises_ok_fail c r h)

theorem promises_ok_connect (c : client) (r : shutdown_outcome) (h : c.promises_ok) :
    (c.connect r).promises_ok :=
  promises_ok_congr (c.fail_outstanding_futures r) _ rfl rfl rfl (promises_ok_fail c r h)

theorem promises_ok_do_connect (c : client) (h : c.promises_ok) : c.do_connect.2.promises_ok := by
  unfold client.do_connect
  split <;> exact h

theorem promises_ok_connect_continue (c : client) (h : c.promises_ok) :
    c.connect_continue.2.promises_ok := by
  unfold client.connect_continue
  split
  · exact promises_ok_do_connect _ h
  · split
    · exact promises_ok_do_connect _ h
    · exact h

theorem promises_ok_do_connect_continue (c : client) (net : Bool) (h : c.promises_ok) :
    (c.do_connect_continue net).2.promises_ok := by
  unfold client.do_connect_continue
  split
  · exact h
  · split
    · exact h
    · split <;> exact h

theorem promises_ok_reads_failed (c : client) (i : Nat) (r : shutdown_outcome)
    (h : c.promises_ok) : (c.reads_failed i r).promises_ok :=
  promises_ok_congr
    (({ c with probe := c.probe ++ [probe_event.connection_closed] } :
      client).fail_outstanding_futures r) _ rfl rfl rfl
    (promises_ok_fail _ r h)

theorem promises_ok_loop_check (c : client) (i : Nat) (h : c.promises_ok) :
    (c.loop_check i).promises_ok := by
  unfold client.loop_check
  split <;> exact h

theorem promises_ok_header_read (c : client) (i : Nat) (hd : Option header) (eof : Bool)
    (r : shutdown_outcome) (h : c.promises_ok) : (c.header_read i hd eof r).promises_ok := by
  unfold client.header_read
  split
  · cases hd with
    | none => exact promises_ok_loop_check _ i h
    | some x =>
      have h1 : ({ c with in_eof := c.in_eof || eof } : client).promises_ok := h
      have h2 := promises_ok_dispatch _ x h1
      simp only
      split
      · rename_i c2 heq
        rw [heq] at h2
        exact promises_ok_reads_failed c2 i r h2
      · rename_i c2 heq
        rw [heq] at h2
        exact h2
  · exact h

theorem promises_ok_read_failed (c : client) (i : Nat) (r : shutdown_outcome)
    (h : c.promises_ok) : (c.read_failed i r).promises_ok := by
  unfold client.read_failed
  split
  · exact promises_ok_reads_failed c i r h
  · exact h

theorem promises_ok_body_parsed (c : client) (i : Nat) (h : c.promises_ok) :
    (c.body_parsed i).promises_ok := by
  unfold client.body_parsed
  split
  · exact promises_ok_loop_check _ i h
  · exact h

theorem promises_ok_write_done (c : client) (ok : Bool) (h : c.promises_ok) :
    (c.write_done ok).promises_ok := by
  unfold client.write_done
  split <;> exact h

theorem promises_ok_run_leave (c : client) (h : c.promises_ok) : c.run_leave.promises_ok := by
  unfold client.run_leave
  split <;> exact h

theorem promises_ok_step (c : client) (e : event) (h : c.promises_ok) :
    (c.step e).promises_ok := by
  cases e with
  | send b => exact promises_ok_send c b h
  | dispatch hd => exact promises_ok_dispatch c hd h
  | fail_outstanding_futures r => exact promises_ok_fail c r h
  | stop r => exact promises_ok_stop c r h
  | connect r => exact promises_ok_connect c r h
  | connect_continue => exact promises_ok_connect_continue c h
  | do_connect_continue net => exact promises_ok_do_connect_continue c net h
  | header_read i hd eof r => exact promises_ok_header_read c i hd eof r h
  | read_failed i r => exact promises_ok_read_failed c i r h
  | body_parsed i => exact promises_ok_body_parsed c i h
  | write_done ok => exact promises_ok_write_done c ok h
  | run_leave => exact promises_ok_run_leave c h
  | reserve_memory ask => exact h
  | release_memory n => exact h

theorem promises_ok_run (es : List event) (c : client) (h : c.promises_ok) :
    (c.run es).promises_ok := by
  induction es generalizing c with
  | nil => exact h
  | cons e rest ih => exact ih (c.step e) (promises_ok_step c e h)

theorem run_append (c : client) (es fs : List event) :
    c.run (es ++ fs) = (c.run es).run fs := by
  simp [client.run, List.foldl_append]

theorem find_erase_ne (t : List (Nat × Nat)) (k0 k : Nat) (h : k ≠ k0) :
    find (erase t k0) k = find t k := by
  induction t with
  | nil => rfl
  | cons e rest ih =>
    obtain ⟨k1, p⟩ := e
    by_cases h1 : k1 = k0
    · subst h1
      have h2 : ¬ k1 = k := fun h3 => h h3.symm
      simp [erase, find, h2]
    · by_cases h2 : k1 = k
      · subst h2
        simp [erase, find, h1]
      · simp [erase, find, h1, h2, ih]

theorem find_erase_self (t : List (Nat × Nat)) (k : Nat) (h : (keys t).Nodup) :
    find (erase t k) k = none := by
  cases hf : find t k with
  | none =>
    rw [find_eq_none_iff] at hf ⊢
    intro hmem
    apply hf
    clear hf h
    induction t with
    | nil => simp [erase, keys] at hmem
    | cons e rest ih =>
      obtain ⟨k1, p⟩ := e
      by_cases h1 : k1 = k
      · simp [keys, h1]
      · simp only [erase, h1, if_false, keys, List.map_cons, List.mem_cons] at hmem ⊢
        rcases hmem with hmem | hmem
        · exact Or.inl hmem
        · exact Or.inr (ih hmem)
  | some pr =>
    have hk := keys_perm_of_find _ _ _ hf
    have := (hk.nodup_iff).mp h
    rw [List.nodup_cons] at this
    exact (find_eq_none_iff _ _).mpr this.1

theorem reachable_promises_ok (m hs : Nat) (es : List event) :
    ((client.init m hs).run es).promises_ok :=
  promises_ok_run es _ (promises_ok_init m hs)

/-- C1: in every state reached from a new client, `dispatch(h)` for a header whose
correlation id is registered succeeds, fulfils exactly the promise registered under
that id (one new completion, carrying a context whose `get_header()` is `h`; the
promise was unfulfilled before), removes that entry, and leaves every other id
registered with its own promise, all of them still unfulfilled. -/
theorem dispatch_routes_by_correlation_id (m hs : Nat) (es : List event) (h : header)
    (pr : Nat)
    (hreg : find ((client.init m hs).run es).correlations h.correlation_id = some pr) :
    (((client.init m hs).run es).dispatch h).1 = true ∧
    (∃ ctx : client_context_impl, ctx.get_header = h ∧
      (((client.init m hs).run es).dispatch h).2.completed =
        ((client.init m hs).run es).completed ++ [(pr, outcome.value ctx)]) ∧
    pr ∉ ((client.init m hs).run es).fulfilled ∧
    find (((client.init m hs).run es).dispatch h).2.correlations h.correlation_id = none ∧
    (∀ k, k ≠ h.correlation_id →
      find (((client.init m hs).run es).dispatch h).2.correlations k =
        find ((client.init m hs).run es).correlations k) ∧
    (∀ q ∈ (((client.init m hs).run es).dispatch h).2.pending,
      q ≠ pr ∧ q ∉ (((client.init m hs).run es).dispatch h).2.fulfilled) := by
  have hok := reachable_promises_ok m hs es
  have hok2 := promises_ok_dispatch _ h hok
  generalize (client.init m hs).run es = c at *
  rw [dispatch_known c h pr hreg] at hok2 ⊢
  obtain ⟨a1, a2, a3, a4, a5, a6, a7⟩ := hok
  obtain ⟨b1, b2, b3, b4, b5, b6, b7⟩ := hok2
  have hpr : pr ∈ promises c.correlations :=
    (promises_perm_of_find _ _ _ hreg).mem_iff.mpr (List.mem_cons_self _ _)
  refine ⟨rfl, ⟨{ h := h }, rfl, rfl⟩, (a4 pr hpr).2, find_erase_self _ _ a1,
    fun k hk => find_erase_ne _ _ _ hk, ?_⟩
  intro q hq
  refine ⟨?_, (b4 q hq).2⟩
  intro heq
  subst heq
  have := (promises_perm_of_find _ _ _ hreg).nodup_iff.mp a2
  rw [List.nodup_cons] at this
  exact this.1 hq

/-- Witness for C1: after connect, three sends are registered under ids 1, 2, 3;
the replies arrive in the order 3, 1, 2 and each fulfils the promise of its own id. -/
theorem dispatch_routes_by_correlation_id_witness :
    ((client.init 100 16).run [.connect .ok, .connect_continue,
      .do_connect_continue true, .send ⟨0, 60⟩,
      .send ⟨0, 60⟩, .send ⟨0, 60⟩]).correlations = [(1, 0), (2, 1), (3, 2)] ∧
    (((client.init 100 16).run [.connect .ok, .connect_continue,
      .do_connect_continue true, .send ⟨0, 60⟩,
      .send ⟨0, 60⟩, .send ⟨0, 60⟩]).dispatch ⟨5, 3, 0⟩).1 = true ∧
    (((client.init 100 16).run [.connect .ok, .connect_continue,
      .do_connect_continue true, .send ⟨0, 60⟩,
      .send ⟨0, 60⟩, .send ⟨0, 60⟩, .dispatch ⟨5, 3, 0⟩]).dispatch ⟨6, 1, 0⟩).1 = true ∧
    (((client.init 100 16).run [.connect .ok, .connect_continue,
      .do_connect_continue true, .send ⟨0, 60⟩,
      .send ⟨0, 60⟩, .send ⟨0, 60⟩, .dispatch ⟨5, 3, 0⟩,
      .dispatch ⟨6, 1, 0⟩]).dispatch ⟨7, 2, 0⟩).2.completed =
      [(2, .value ⟨⟨5, 3, 0⟩⟩), (0, .value ⟨⟨6, 1, 0⟩⟩), (1, .value ⟨⟨7, 2, 0⟩⟩)] :=
  ⟨by decide,
   (dispatch_routes_by_correlation_id 100 16 _ ⟨5, 3, 0⟩ 2 (by decide)).1,
   (dispatch_routes_by_correlation_id 100 16 _ ⟨6, 1, 0⟩ 0 (by decide)).1,
   by decide⟩

theorem once_of_book_ok (t : List (Nat × Nat)) (done : List (Nat × outcome)) (n p : Nat)
    (h : book_ok t done n) (hp : p < n) :
    (p ∈ promises t ∧ (done.map Prod.fst).count p = 0) ∨
    (p ∉ promises t ∧ (done.map Prod.fst).count p = 1) := by
  obtain ⟨_, _, a3, a4, _, a6, _⟩ := h
  rcases a6 p hp with h6 | h6
  · exact Or.inl ⟨h6, List.count_eq_zero_of_not_mem (a4 p h6).2⟩
  · refine Or.inr ⟨fun hc => (a4 p hc).2 h6, List.count_eq_one_of_mem a3 h6⟩

/-- C2: in every state reached from a new client by any sequence of events, no
promise has been set twice, every promise created by `send` is either still
registered and unset or no longer registered and set exactly once, every
fulfilment is a `set_value` of `dispatch` or the `set_exception` of
`fail_outstanding_futures`, and after `stop()` nothing is registered and every
promise created so far has been set exactly once. -/
theorem exactly_once_completion (m hs : Nat) (es : List event) (r : shutdown_outcome) :
    ((client.init m hs).run es).fulfilled.Nodup ∧
    (∀ p, p < ((client.init m hs).run es).next_promise →
      (p ∈ ((client.init m hs).run es).pending ∧
        ((client.init m hs).run es).fulfilled.count p = 0) ∨
      (p ∉ ((client.init m hs).run es).pending ∧
        ((client.init m hs).run es).fulfilled.count p = 1)) ∧
    (∀ e ∈ ((client.init m hs).run es).completed, e.2.set_by_client = true) ∧
    (((client.init m hs).run es).stop r).pending = [] ∧
    (∀ p, p < (((client.init m hs).run es).stop r).next_promise →
      (((client.init m hs).run es).stop r).fulfilled.count p = 1) := by
  have hok := reachable_promises_ok m hs es
  have hok2 := promises_ok_stop _ r hok
  generalize (client.init m hs).run es = c at *
  have hempty : (c.stop r).correlations = [] := (fail_book c r).1
  refine ⟨hok.2.2.1, fun p hp => once_of_book_ok _ _ _ p hok hp, hok.2.2.2.2.2.2, ?_, ?_⟩
  · simp [client.pending, hempty, promises]
  · intro p hp
    rcases once_of_book_ok _ _ _ p hok2 hp with h1 | h1
    · rw [hempty] at h1
      simp [promises] at h1
    · exact h1.2

/-- Witness for C2: two requests are sent, the reply to the second arrives, then
`stop()` runs: promises 0 and 1 are each set exactly once. -/
theorem exactly_once_completion_witness :
    (((client.init 100 16).run [.connect .ok, .connect_continue,
      .do_connect_continue true, .send ⟨0, 60⟩,
      .send ⟨0, 60⟩, .dispatch ⟨5, 2, 0⟩]).stop .ok).next_promise = 2 ∧
    (((client.init 100 16).run [.connect .ok, .connect_continue,
      .do_connect_continue true, .send ⟨0, 60⟩,
      .send ⟨0, 60⟩, .dispatch ⟨5, 2, 0⟩]).stop .ok).fulfilled.count 0 = 1 ∧
    (((client.init 100 16).run [.connect .ok, .connect_continue,
      .do_connect_continue true, .send ⟨0, 60⟩,
      .send ⟨0, 60⟩, .dispatch ⟨5, 2, 0⟩]).stop .ok).fulfilled.count 1 = 1 :=
  ⟨by decide,
   (exactly_once_completion 100 16 _ .ok).2.2.2.2 0 (by decide),
   (exactly_once_completion 100 16 _ .ok).2.2.2.2 1 (by decide)⟩

/-- C3: in every state reached from a new client the correlation ids in the table
are pairwise distinct, and when `send` registers a request, the id it assigns is
not the id of any request outstanding at that moment, it is the id stamped into
the buffer written to the output stream, and it is the only id added. -/
theorem outstanding_ids_distinct (m hs : Nat) (es : List event) (b : netbuf) :
    (keys ((client.init m hs).run es).correlations).Nodup ∧
    (keys (((client.init m hs).run es).send b).2.correlations).Nodup ∧
    (∀ idx p, (((client.init m hs).run es).send b).1 = .pending idx p →
      idx ∉ keys ((client.init m hs).run es).correlations ∧
      (b.set_correlation_id idx).correlation_id = idx ∧
      (((client.init m hs).run es).send b).2.out =
        ((client.init m hs).run es).out ++ [b.set_correlation_id idx] ∧
      (((client.init m hs).run es).send b).2.correlations =
        ((client.init m hs).run es).correlations ++ [(idx, p)]) := by
  have hok := reachable_promises_ok m hs es
  have hok2 := promises_ok_send _ b hok
  generalize (client.init m hs).run es = c at *
  refine ⟨hok.1, hok2.1, ?_⟩
  intro idx p hres
  rcases send_cases c with h1 | ⟨hv, hg, q, hf⟩ | ⟨hv, hg, hf⟩
  · rw [send_invalid c b h1] at hres; cases hres
  · rw [send_collision c b hv hg q hf] at hres; cases hres
  · rw [send_fresh c b hv hg hf] at hres ⊢
    simp only [send_result.pending.injEq] at hres
    obtain ⟨h2, h3⟩ := hres
    subst h2 h3
    exact ⟨(find_eq_none_iff _ _).mp hf, rfl, rfl, rfl⟩

/-- Witness for C3: with requests 1 and 3 outstanding the next send gets id 4. -/
theorem outstanding_ids_distinct_witness :
    (((client.init 100 16).run [.connect .ok, .connect_continue,
      .do_connect_continue true, .send ⟨0, 60⟩,
      .send ⟨0, 60⟩, .send ⟨0, 60⟩, .dispatch ⟨5, 2, 0⟩]).send ⟨0, 9⟩).1 = .pending 4 3 ∧
    4 ∉ keys ((client.init 100 16).run [.connect .ok, .connect_continue,
      .do_connect_continue true, .send ⟨0, 60⟩,
      .send ⟨0, 60⟩, .send ⟨0, 60⟩, .dispatch ⟨5, 2, 0⟩]).correlations :=
  ⟨by decide, ((outstanding_ids_distinct 100 16 _ ⟨0, 9⟩).2.2 4 3 (by decide)).1⟩

/-! ## Connects that do not overlap -/

theorem shutdown_conn (c : client) (r : shutdown_outcome) :
    (c.shutdown r).stop_waiters = c.stop_waiters ∧
    (c.shutdown r).conts_ready = c.conts_ready ∧
    (c.shutdown r).connecting = c.connecting ∧
    (c.shutdown r).correlation_idx = c.correlation_idx ∧
    (c.is_valid = false → (c.shutdown r).is_valid = false) := by
  unfold client.shutdown
  cases hfd : c.fd with
  | none => exact ⟨rfl, rfl, rfl, rfl, fun h => h⟩
  | some s => cases r <;> simp [client.is_valid, hfd]

theorem fail_conn (c : client) (r : shutdown_outcome) :
    (c.fail_outstanding_futures r).stop_waiters = c.stop_waiters ∧
    (c.fail_outstanding_futures r).conts_ready = c.conts_ready ∧
    (c.fail_outstanding_futures r).connecting = c.connecting ∧
    (c.fail_outstanding_futures r).correlation_idx = c.correlation_idx ∧
    (c.is_valid = false → (c.fail_outstanding_futures r).is_valid = false) := by
  obtain ⟨h1, h2, h3, h4, h5⟩ := shutdown_conn c r
  exact ⟨h1, h2, h3, h4, h5⟩

theorem stop_conn (c : client) (r : shutdown_outcome) :
    (c.stop r).stop_waiters = c.stop_waiters ∧
    (c.stop r).conts_ready = c.conts_ready ∧
    (c.stop r).connecting = c.connecting ∧
    (c.stop r).correlation_idx = c.correlation_idx ∧
    (c.is_valid = false → (c.stop r).is_valid = false) := fail_conn c r

theorem send_conn (c : client) (b : netbuf) :
    (c.send b).2.stop_waiters = c.stop_waiters ∧
    (c.send b).2.conts_ready = c.conts_ready ∧
    (c.send b).2.connecting = c.connecting ∧
    (c.send b).2.is_valid = c.is_valid ∧
    (c.is_valid = false → (c.send b).2 = c) := by
  rcases send_cases c with h1 | ⟨hv, hg, p, hf⟩ | ⟨hv, hg, hf⟩
  · rw [send_invalid c b h1]
    exact ⟨rfl, rfl, rfl, rfl, fun _ => rfl⟩
  · rw [send_collision c b hv hg p hf]
    exact ⟨rfl, rfl, rfl, rfl, fun h => by rw [hv] at h; cases h⟩
  · rw [send_fresh c b hv hg hf]
    exact ⟨rfl, rfl, rfl, rfl, fun h => by rw [hv] at h; cases h⟩

theorem dispatch_conn (c : client) (hd : header) :
    (c.dispatch hd).2.stop_waiters = c.stop_waiters ∧
    (c.dispatch hd).2.conts_ready = c.conts_ready ∧
    (c.dispatch hd).2.connecting = c.connecting ∧
    (c.dispatch hd).2.correlation_idx = c.correlation_idx ∧
    (c.dispatch hd).2.is_valid = c.is_valid := by
  unfold client.dispatch
  split <;> exact ⟨rfl, rfl, rfl, rfl, rfl⟩

theorem loop_check_conn (c : client) (i : Nat) :
    (c.loop_check i).stop_waiters = c.stop_waiters ∧
    (c.loop_check i).conts_ready = c.conts_ready ∧
    (c.loop_check i).connecting = c.connecting ∧
    (c.loop_check i).correlation_idx = c.correlation_idx ∧
    (c.loop_check i).is_valid = c.is_valid ∧
    (c.loop_check i).correlations = c.correlations := by
  unfold client.loop_check client.reads_done
  split <;> exact ⟨rfl, rfl, rfl, rfl, rfl, rfl⟩

theorem reads_failed_conn (c : client) (i : Nat) (r : shutdown_outcome) :
    (c.reads_failed i r).stop_waiters = c.stop_waiters ∧
    (c.reads_failed i r).conts_ready = c.conts_ready ∧
    (c.reads_failed i r).connecting = c.connecting ∧
    (c.reads_failed i r).correlation_idx = c.correlation_idx ∧
    (c.is_valid = false → (c.reads_failed i r).is_valid = false) ∧
    (c.reads_failed i r).correlations = [] := by
  obtain ⟨h1, h2, h3, h4, h5⟩ :=
    fail_conn { c with probe := c.probe ++ [probe_event.connection_closed] } r
  have h6 := (fail_book { c with probe := c.probe ++ [probe_event.connection_closed] } r).1
  exact ⟨h1, h2, h3, h4, h5, h6⟩

theorem keys_dispatch (c : client) (hd : header) :
    ∀ k ∈ keys (c.dispatch hd).2.correlations, k ∈ keys c.correlations := by
  cases hf : find c.correlations hd.correlation_id with
  | none =>
    rw [dispatch_unknown c hd hf]
    exact fun k hk => hk
  | some pr =>
    rw [dispatch_known c hd pr hf]
    intro k hk
    exact (keys_perm_of_find _ _ _ hf).mem_iff.mpr (List.mem_cons_of_mem _ hk)

theorem header_read_conn (c : client) (i : Nat) (hd : Option header) (eof : Bool)
    (r : shutdown_outcome) :
    (c.header_read i hd eof r).stop_waiters = c.stop_waiters ∧
    (c.header_read i hd eof r).conts_ready = c.conts_ready ∧
    (c.header_read i hd eof r).connecting = c.connecting ∧
    (c.header_read i hd eof r).correlation_idx = c.correlation_idx ∧
    (c.is_valid = false → (c.header_read i hd eof r).is_valid = false) ∧
    (∀ k ∈ keys (c.header_read i hd eof r).correlations, k ∈ keys c.correlations) := by
  have hinv : c.is_valid = false →
      ({ c with in_eof := c.in_eof || eof } : client).is_valid = false := by
    intro h
    simp only [client.is_valid, Bool.and_eq_false_iff, Bool.not_eq_false',
      Bool.or_eq_true] at h ⊢
    rcases h with h | h
    · exact Or.inl h
    · exact Or.inr (Or.inl h)
  unfold client.header_read
  split
  · cases hd with
    | none =>
      simp only
      obtain ⟨h1, h2, h3, h4, h5, h6⟩ := loop_check_conn
        { c with in_eof := c.in_eof || eof,
                 probe := c.probe ++ [probe_event.header_corrupted] } i
      rw [h1, h2, h3, h4, h5, h6]
      exact ⟨rfl, rfl, rfl, rfl, hinv, fun k hk => hk⟩
    | some x =>
      obtain ⟨d1, d2, d3, d4, d5⟩ := dispatch_conn { c with in_eof := c.in_eof || eof } x
      have d6 := keys_dispatch { c with in_eof := c.in_eof || eof } x
      simp only
      split
      · rename_i c2 heq
        rw [heq] at d1 d2 d3 d4 d5 d6
        obtain ⟨f1, f2, f3, f4, f5, f6⟩ := reads_failed_conn c2 i r
        refine ⟨f1.trans d1, f2.trans d2, f3.trans d3, f4.trans d4, ?_, ?_⟩
        · intro h
          exact f5 (d5.trans (hinv h))
        · rw [f6]
          intro k hk
          simp [keys] at hk
      · rename_i c2 heq
        rw [heq] at d1 d2 d3 d4 d5 d6
        exact ⟨d1, d2, d3, d4, fun h => d5.trans (hinv h), d6⟩
  · exact ⟨rfl, rfl, rfl, rfl, fun h => h, fun k hk => hk⟩

/-- What an event that is neither a connect event nor a registering send leaves
alone: the connects in flight and the counter; it keeps an invalid connection
invalid and adds no key to the table. -/
theorem plain_step (c : client) (e : event) (he : e.is_connect = false)
    (hr : e.registers c = false) :
    (c.step e).stop_waiters = c.stop_waiters ∧
    (c.step e).conts_ready = c.conts_ready ∧
    (c.step e).connecting = c.connecting ∧
    (c.step e).correlation_idx = c.correlation_idx ∧
    (c.is_valid = false → (c.step e).is_valid = false) ∧
    (∀ k ∈ keys (c.step e).correlations, k ∈ keys c.correlations) := by
  cases e with
  | send b =>
    simp only [client.step]
    rcases send_cases c with h | ⟨hv, hg, p, hf⟩ | ⟨hv, hg, hf⟩
    · rw [send_invalid c b h]
      exact ⟨rfl, rfl, rfl, rfl, fun h => h, fun k hk => hk⟩
    · rw [send_collision c b hv hg p hf]
      exact ⟨rfl, rfl, rfl, rfl, fun h => h, fun k hk => hk⟩
    · simp [event.registers, send_fresh c b hv hg hf] at hr
  | dispatch hd =>
    obtain ⟨h1, h2, h3, h4, h5⟩ := dispatch_conn c hd
    exact ⟨h1, h2, h3, h4, fun h => h5.trans h, keys_dispatch c hd⟩
  | fail_outstanding_futures r =>
    obtain ⟨h1, h2, h3, h4, h5⟩ := fail_conn c r
    refine ⟨h1, h2, h3, h4, h5, ?_⟩
    simp only [client.step]
    rw [(fail_book c r).1]
    intro k hk
    simp [keys] at hk
  | stop r =>
    obtain ⟨h1, h2, h3, h4, h5⟩ := stop_conn c r
    refine ⟨h1, h2, h3, h4, h5, ?_⟩
    have : (c.stop r).correlations = [] := (fail_book c r).1
    simp only [client.step]
    rw [this]
    intro k hk
    simp [keys] at hk
  | connect r => simp [event.is_connect] at he
  | connect_continue => simp [event.is_connect] at he
  | do_connect_continue net => simp [event.is_connect] at he
  | header_read i hd eof r => exact header_read_conn c i hd eof r
  | read_failed i r =>
    simp only [client.step, client.read_failed]
    split
    · obtain ⟨f1, f2, f3, f4, f5, f6⟩ := reads_failed_conn c i r
      refine ⟨f1, f2, f3, f4, f5, ?_⟩
      rw [f6]
      intro k hk
      simp [keys] at hk
    · exact ⟨rfl, rfl, rfl, rfl, fun h => h, fun k hk => hk⟩
  | body_parsed i =>
    simp only [client.step, client.body_parsed]
    split
    · obtain ⟨h1, h2, h3, h4, h5, h6⟩ := loop_check_conn
        { c with probe := c.probe ++ [probe_event.request_completed] } i
      rw [h1, h2, h3, h4, h5, h6]
      exact ⟨rfl, rfl, rfl, rfl, fun h => h, fun k hk => hk⟩
    · exact ⟨rfl, rfl, rfl, rfl, fun h => h, fun k hk => hk⟩
  | write_done ok =>
    simp only [client.step, client.write_done]
    split <;> exact ⟨rfl, rfl, rfl, rfl, fun h => h, fun k hk => hk⟩
  | run_leave =>
    simp only [client.step, client.run_leave]
    split <;> exact ⟨rfl, rfl, rfl, rfl, fun h => h, fun k hk => hk⟩
  | reserve_memory ask => exact ⟨rfl, rfl, rfl, rfl, fun h => h, fun k hk => hk⟩
  | release_memory n => exact ⟨rfl, rfl, rfl, rfl, fun h => h, fun k hk => hk⟩

theorem conn_step (c : client) (e : event) (he : e.is_connect = false) :
    (c.step e).stop_waiters = c.stop_waiters ∧
    (c.step e).conts_ready = c.conts_ready ∧
    (c.step e).connecting = c.connecting := by
  by_cases hr : e.registers c = true
  · cases e with
    | send b =>
      obtain ⟨h1, h2, h3, _, _⟩ := send_conn c b
      exact ⟨h1, h2, h3⟩
    | _ => simp [event.registers] at hr
  · obtain ⟨h1, h2, h3, _, _, _⟩ := plain_step c e he (by simpa using hr)
    exact ⟨h1, h2, h3⟩

theorem gate_ok_run_leave (c : client) (h : c.gate_ok) : c.run_leave.gate_ok := by
  unfold client.run_leave
  split
  · exact h
  · unfold client.gate_ok at *
    simp [gate.leave, h]
    omega

theorem gate_ok_step (c : client) (e : event) (h : c.gate_ok)
    (hr : c.conts_ready = 0 ∨ e.is_connect = false) : (c.step e).gate_ok := by
  cases e with
  | send b => exact gate_ok_send c b h
  | dispatch hd => exact gate_ok_dispatch c hd h
  | fail_outstanding_futures r => exact gate_ok_fail c r h
  | stop r => exact gate_ok_stop c r h
  | connect r => exact gate_ok_connect c r h
  | connect_continue =>
    rcases hr with hr | hr
    · exact gate_ok_connect_continue c h hr
    · simp [event.is_connect] at hr
  | do_connect_continue net => exact gate_ok_do_connect_continue c net h
  | header_read i hd eof r => exact gate_ok_header_read c i hd eof r h
  | read_failed i r => exact gate_ok_read_failed c i r h
  | body_parsed i => exact gate_ok_body_parsed c i h
  | write_done ok => exact gate_ok_write_done c ok h
  | run_leave => exact gate_ok_run_leave c h
  | reserve_memory ask => exact h
  | release_memory n => exact h

theorem run_cons (c : client) (e : event) (es : List event) :
    c.run (e :: es) = (c.step e).run es := rfl

/-- Over events none of which belongs to a connect, the gate bookkeeping stays
sound and the connects in flight stay as they are. -/
theorem plain_run (es : List event) (c : client)
    (he : es.all (fun e => !e.is_connect) = true) :
    (c.gate_ok → (c.run es).gate_ok) ∧
    (c.run es).stop_waiters = c.stop_waiters ∧
    (c.run es).conts_ready = c.conts_ready ∧
    (c.run es).connecting = c.connecting := by
  induction es generalizing c with
  | nil => exact ⟨fun h => h, rfl, rfl, rfl⟩
  | cons e rest ih =>
    simp only [List.all_cons, Bool.and_eq_true, Bool.not_eq_true'] at he
    obtain ⟨h1, h2, h3⟩ := conn_step c e he.1
    obtain ⟨i0, i1, i2, i3⟩ := ih (c.step e) he.2
    rw [run_cons]
    exact ⟨fun h => i0 (gate_ok_step c e h (Or.inr he.1)), i1.trans h1, i2.trans h2,
      i3.trans h3⟩

theorem keys_nil {t : List (Nat × Nat)} (h : ∀ k ∈ keys t, k ∈ keys ([] : List (Nat × Nat))) :
    t = [] := by
  cases t with
  | nil => rfl
  | cons x rest =>
    have := h x.1 (by simp [keys])
    simp [keys] at this

theorem do_connect_cases (c : client) :
    (c.do_connect = (false, c) ∧ (c.is_valid = true ∨ c.dispatch_gate.is_closed = true)) ∨
    (c.do_connect = (true, { c with connecting := c.connecting + 1 }) ∧
      c.is_valid = false ∧ c.dispatch_gate.is_closed = false) := by
  unfold client.do_connect
  split
  · rename_i h
    simp only [Bool.or_eq_true] at h
    exact Or.inl ⟨rfl, h⟩
  · rename_i h
    simp only [Bool.or_eq_true, not_or, Bool.not_eq_true] at h
    exact Or.inr ⟨rfl, h⟩

/-- The continuation of `connect()` from a state with no stale continuation: it is
disabled, or the installed gate has drained and it installs a new gate and runs
`do_connect`. -/
theorem connect_continue_cases (c : client) (hr : c.conts_ready = 0) :
    (c.connect_continue = (false, c) ∧
      (c.dispatch_gate.drained = false ∨ c.stop_waiters = 0)) ∨
    (c.dispatch_gate.drained = true ∧ 0 < c.stop_waiters ∧
      c.connect_continue =
        { c with
          dispatch_gate := gate.fresh
          conts_ready := c.stop_waiters - 1
          stop_waiters := 0 }.do_connect) := by
  unfold client.connect_continue
  split
  · rename_i h
    simp only [Bool.and_eq_true, decide_eq_true_eq] at h
    refine Or.inr ⟨h.1, h.2, ?_⟩
    rw [hr, Nat.zero_add]
  · rename_i h
    simp only [Bool.and_eq_true, decide_eq_true_eq, not_and_or, Bool.not_eq_true,
      Nat.not_lt, Nat.le_zero] at h
    rw [if_neg (by omega)]
    exact Or.inl ⟨rfl, h⟩

theorem orderly_step (c : client) (e : event) (h : c.orderly)
    (hs : (match e with
      | .connect _ => c.idle
      | _ => true) = true) : (c.step e).orderly := by
  obtain ⟨hg, hr, hle, hconn⟩ := h
  by_cases he : e.is_connect = false
  · obtain ⟨h1, h2, h3⟩ := conn_step c e he
    refine ⟨gate_ok_step c e hg (Or.inr he), h2.trans hr, by rw [h1, h3]; exact hle, ?_⟩
    rw [h3]
    intro hpos
    obtain ⟨hv, ht⟩ := hconn hpos
    have hreg : e.registers c = false := by
      cases e with
      | send b =>
        simp only [event.registers]
        rw [send_invalid c b (Or.inl hv)]
      | _ => rfl
    obtain ⟨_, _, _, _, p5, p6⟩ := plain_step c e he hreg
    refine ⟨p5 hv, keys_nil ?_⟩
    intro k hk
    rw [ht] at p6
    exact p6 k hk
  · cases e with
    | connect r =>
      simp only [client.idle, Bool.and_eq_true, beq_iff_eq] at hs
      obtain ⟨s1, s2, s3, _, _⟩ := stop_conn c r
      refine ⟨gate_ok_connect c r hg, ?_, ?_, ?_⟩
      · exact s2.trans hr
      · simp only [client.step, client.connect]
        rw [s1, s3]
        omega
      · intro hpos
        simp only [client.step, client.connect] at hpos
        rw [s3] at hpos
        omega
    | connect_continue =>
      rcases connect_continue_cases c hr with ⟨h1, _⟩ | ⟨hd, hw, h1⟩
      · simp only [client.step, h1]
        exact ⟨hg, hr, hle, hconn⟩
      · obtain ⟨e1, e2, e3, e4⟩ := empty_of_drained c hg hd
        have hsw : c.stop_waiters = 1 := by omega
        have hc0 : c.connecting = 0 := by omega
        simp only [client.step, h1]
        generalize hcn : ({ c with
          dispatch_gate := gate.fresh
          conts_ready := c.stop_waiters - 1
          stop_waiters := 0 } : client) = cn
        have hg2 : cn.gate_ok := by
          subst hcn
          unfold client.gate_ok
          simp [gate.fresh, e1, e2, e3, e4]
        have hn1 : cn.conts_ready = 0 := by subst hcn; simp [hsw]
        have hn2 : cn.stop_waiters = 0 := by subst hcn; rfl
        have hn3 : cn.connecting = 0 := by subst hcn; exact hc0
        have hn4 : cn.correlations = [] := by subst hcn; exact e1
        rcases do_connect_cases cn with ⟨d1, _⟩ | ⟨d1, dv, _⟩
        · rw [d1]
          refine ⟨hg2, hn1, by simp only; omega, ?_⟩
          intro hpos
          simp only at hpos
          omega
        · rw [d1]
          refine ⟨hg2, hn1, by simp only; omega, ?_⟩
          intro _
          exact ⟨dv, hn4⟩
    | do_connect_continue net =>
      have hg2 := gate_ok_do_connect_continue c net hg
      simp only [client.step]
      refine ⟨hg2, ?_, ?_, ?_⟩
      · unfold client.do_connect_continue
        split
        · exact hr
        · split
          · exact hr
          · split <;> exact hr
      · unfold client.do_connect_continue
        split
        · exact hle
        · split
          · simp only
            omega
          · split <;> (simp only; omega)
      · unfold client.do_connect_continue
        split
        · exact hconn
        · split
          · simp only
            intro hpos
            omega
          · split <;> (simp only; intro hpos; omega)
    | _ => simp [event.is_connect] at he

theorem orderly_run (es : List event) (c : client) (h : c.orderly)
    (hs : c.sequential es = true) : (c.run es).orderly := by
  induction es generalizing c with
  | nil => exact h
  | cons e rest ih =>
    simp only [client.sequential, Bool.and_eq_true] at hs
    exact ih (c.step e) (orderly_step c e h hs.1) hs.2

theorem orderly_init (m hs : Nat) : (client.init m hs).orderly := by
  unfold client.orderly client.gate_ok
  simp [client.init, gate.fresh]

/-! ## Sockets -/

theorem send_sock (c : client) (b : netbuf) :
    (c.send b).2.fd = c.fd ∧ (c.send b).2.released = c.released ∧
    (c.send b).2.next_socket = c.next_socket ∧ (c.send b).2.in_eof = c.in_eof := by
  rcases send_cases c with h1 | ⟨hv, hg, p, hf⟩ | ⟨hv, hg, hf⟩
  · rw [send_invalid c b h1]
    exact ⟨rfl, rfl, rfl, rfl⟩
  · rw [send_collision c b hv hg p hf]
    exact ⟨rfl, rfl, rfl, rfl⟩
  · rw [send_fresh c b hv hg hf]
    exact ⟨rfl, rfl, rfl, rfl⟩

theorem dispatch_sock (c : client) (hd : header) :
    (c.dispatch hd).2.fd = c.fd ∧ (c.dispatch hd).2.released = c.released ∧
    (c.dispatch hd).2.next_socket = c.next_socket ∧ (c.dispatch hd).2.in_eof = c.in_eof := by
  unfold client.dispatch
  split <;> exact ⟨rfl, rfl, rfl, rfl⟩

theorem loop_check_sock (c : client) (i : Nat) :
    (c.loop_check i).fd = c.fd ∧ (c.loop_check i).released = c.released ∧
    (c.loop_check i).next_socket = c.next_socket ∧ (c.loop_check i).in_eof = c.in_eof := by
  unfold client.loop_check client.reads_done
  split <;> exact ⟨rfl, rfl, rfl, rfl⟩

theorem shutdown_next (c : client) (r : shutdown_outcome) :
    (c.shutdown r).next_socket = c.next_socket ∧ (c.shutdown r).in_eof = c.in_eof := by
  unfold client.shutdown
  cases hfd : c.fd <;> cases r <;> exact ⟨rfl, rfl⟩

theorem shutdown_congr (c d : client) (r : shutdown_outcome) (h1 : d.fd = c.fd)
    (h2 : d.released = c.released) :
    (d.shutdown r).fd = (c.shutdown r).fd ∧
    (d.shutdown r).released = (c.shutdown r).released := by
  unfold client.shutdown
  cases hc : c.fd with
  | none =>
    rw [hc] at h1
    simp [h1, h2, hc]
  | some s =>
    rw [hc] at h1
    cases r <;> simp [h1, h2, hc]

/-- What one event does to the socket held, the sockets destroyed and the socket
numbering: nothing, or what `shutdown` does, or what a network connect finishing
with a socket does. -/
theorem sock_step (c : client) (e : event) :
    ((c.step e).fd = c.fd ∧ (c.step e).released = c.released ∧
      (c.step e).next_socket = c.next_socket) ∨
    (∃ r, (c.step e).fd = (c.shutdown r).fd ∧ (c.step e).released = (c.shutdown r).released ∧
      (c.step e).next_socket = c.next_socket) ∨
    (e.connects c = true ∧
      (c.step e).fd = some { id := c.next_socket, input_shut := false, output_shut := false } ∧
      (c.step e).released = c.fd.toList ++ c.released ∧
      (c.step e).next_socket = c.next_socket + 1) := by
  have hfail : ∀ (d : client) (r : shutdown_outcome),
      (d.fail_outstanding_futures r).fd = (d.shutdown r).fd ∧
      (d.fail_outstanding_futures r).released = (d.shutdown r).released ∧
      (d.fail_outstanding_futures r).next_socket = d.next_socket :=
    fun d r => ⟨rfl, rfl, (shutdown_next d r).1⟩
  have hrf : ∀ (d : client) (i : Nat) (r : shutdown_outcome),
      (d.reads_failed i r).fd = (d.shutdown r).fd ∧
      (d.reads_failed i r).released = (d.shutdown r).released ∧
      (d.reads_failed i r).next_socket = d.next_socket := by
    intro d i r
    unfold client.reads_failed client.fail_outstanding_futures client.shutdown
    cases hfd : d.fd <;> cases r <;> simp [hfd]
  cases e with
  | send b =>
    obtain ⟨h1, h2, h3, _⟩ := send_sock c b
    exact Or.inl ⟨h1, h2, h3⟩
  | dispatch hd =>
    obtain ⟨h1, h2, h3, _⟩ := dispatch_sock c hd
    exact Or.inl ⟨h1, h2, h3⟩
  | fail_outstanding_futures r => exact Or.inr (Or.inl ⟨r, hfail c r⟩)
  | stop r => exact Or.inr (Or.inl ⟨r, hfail c r⟩)
  | connect r => exact Or.inr (Or.inl ⟨r, hfail c r⟩)
  | connect_continue =>
    refine Or.inl ?_
    simp only [client.step]
    unfold client.connect_continue client.do_connect
    split
    · split <;> exact ⟨rfl, rfl, rfl⟩
    · split
      · split <;> exact ⟨rfl, rfl, rfl⟩
      · exact ⟨rfl, rfl, rfl⟩
  | do_connect_continue net =>
    simp only [client.step, event.connects]
    unfold client.do_connect_continue
    split
    · exact Or.inl ⟨rfl, rfl, rfl⟩
    · split
      · exact Or.inl ⟨rfl, rfl, rfl⟩
      · rename_i h0 hn
        have hnet : net = true := by simpa using hn
        have hpos : 0 < c.connecting := Nat.pos_of_ne_zero h0
        split <;> exact Or.inr (Or.inr ⟨by simp [hnet, hpos], rfl, rfl, rfl⟩)
  | header_read i hd eof r =>
    simp only [client.step]
    unfold client.header_read
    split
    · cases hd with
      | none =>
        obtain ⟨h1, h2, h3, _⟩ := loop_check_sock
          { c with in_eof := c.in_eof || eof,
                   probe := c.probe ++ [probe_event.header_corrupted] } i
        exact Or.inl ⟨h1, h2, h3⟩
      | some x =>
        obtain ⟨d1, d2, d3, _⟩ := dispatch_sock { c with in_eof := c.in_eof || eof } x
        simp only
        split
        · rename_i c2 heq
          rw [heq] at d1 d2 d3
          obtain ⟨f1, f2, f3⟩ := hrf c2 i r
          have hsame := shutdown_congr c c2 r d1 d2
          exact Or.inr (Or.inl ⟨r, f1.trans hsame.1, f2.trans hsame.2, f3.trans d3⟩)
        · rename_i c2 heq
          rw [heq] at d1 d2 d3
          exact Or.inl ⟨d1, d2, d3⟩
    · exact Or.inl ⟨rfl, rfl, rfl⟩
  | read_failed i r =>
    simp only [client.step, client.read_failed]
    split
    · exact Or.inr (Or.inl ⟨r, hrf c i r⟩)
    · exact Or.inl ⟨rfl, rfl, rfl⟩
  | body_parsed i =>
    simp only [client.step, client.body_parsed]
    split
    · obtain ⟨h1, h2, h3, _⟩ := loop_check_sock
        { c with probe := c.probe ++ [probe_event.request_completed] } i
      exact Or.inl ⟨h1, h2, h3⟩
    · exact Or.inl ⟨rfl, rfl, rfl⟩
  | write_done ok =>
    simp only [client.step, client.write_done]
    split <;> exact Or.inl ⟨rfl, rfl, rfl⟩
  | run_leave =>
    simp only [client.step, client.run_leave]
    split <;> exact Or.inl ⟨rfl, rfl, rfl⟩
  | reserve_memory ask => exact Or.inl ⟨rfl, rfl, rfl⟩
  | release_memory n => exact Or.inl ⟨rfl, rfl, rfl⟩

theorem fd_none_shutdown (c : client) (r : shutdown_outcome) (h : c.fd = none) :
    c.shutdown r = c := by
  simp [client.shutdown, h]

theorem fd_none_step (c : client) (e : event) (h : c.fd = none)
    (hc : e.connects c = false) : (c.step e).fd = none := by
  rcases sock_step c e with ⟨h1, _, _⟩ | ⟨r, h1, _, _⟩ | ⟨h1, _⟩
  · exact h1.trans h
  · rw [h1, fd_none_shutdown c r h]
    exact h
  · rw [hc] at h1
    cases h1

theorem connects_of_ne (c : client) (e : event) (h : e ≠ .do_connect_continue true) :
    e.connects c = false := by
  cases e with
  | do_connect_continue net =>
    cases net with
    | true => exact absurd rfl h
    | false => rfl
  | _ => rfl

theorem fd_none_run (es : List event) (c : client) (h : c.fd = none)
    (hc : ∀ e ∈ es, e ≠ event.do_connect_continue true) : (c.run es).fd = none := by
  induction es generalizing c with
  | nil => exact h
  | cons e rest ih =>
    exact ih (c.step e)
      (fd_none_step c e h (connects_of_ne c e (hc e (List.mem_cons_self _ _))))
      (fun x hx => hc x (List.mem_cons_of_mem _ hx))

theorem fd_stop (c : client) (r : shutdown_outcome) (h : c.fd = none ∨ r = .ok) :
    (c.stop r).fd = none := by
  unfold client.stop client.fail_outstanding_futures client.shutdown
  rcases h with h | h
  · simp [h]
  · subst h
    cases hfd : c.fd <;> simp [hfd]

theorem stopped_stop (c : client) (r : shutdown_outcome) :
    (c.stop r).dispatch_gate.stopped = true := by
  simp [client.stop, gate.close]

theorem released_shutdown (c : client) (r : shutdown_outcome) (s : connected_socket)
    (h : s ∈ c.released) : s ∈ (c.shutdown r).released := by
  unfold client.shutdown
  cases hfd : c.fd <;> cases r <;> simp [h]

theorem released_step (c : client) (e : event) (s : connected_socket) (h : s ∈ c.released) :
    s ∈ (c.step e).released := by
  rcases sock_step c e with ⟨_, h2, _⟩ | ⟨r, _, h2, _⟩ | ⟨_, _, h2, _⟩
  · rw [h2]
    exact h
  · rw [h2]
    exact released_shutdown c r s h
  · rw [h2]
    exact List.mem_append_right _ h

theorem released_run (es : List event) (c : client) (s : connected_socket)
    (h : s ∈ c.released) : s ∈ (c.run es).released := by
  induction es generalizing c with
  | nil => exact h
  | cons e rest ih => exact ih (c.step e) (released_step c e s h)

theorem sockets_ok_shutdown (c : client) (r : shutdown_outcome) (h : c.sockets_ok) :
    (∀ id, id < c.next_socket →
      (c.shutdown r).fd.map connected_socket.id = some id ∨
      id ∈ (c.shutdown r).released.map connected_socket.id) ∧
    (∀ s, (c.shutdown r).fd = some s →
      s.id < c.next_socket ∧ s.id ∉ (c.shutdown r).released.map connected_socket.id) ∧
    (∀ id ∈ (c.shutdown r).released.map connected_socket.id, id < c.next_socket) := by
  obtain ⟨h1, h2, h3⟩ := h
  unfold client.shutdown
  cases hfd : c.fd with
  | none =>
    simp only
    rw [hfd] at h1 h2
    exact ⟨by simpa [hfd] using h1, by simp [hfd], h3⟩
  | some s =>
    have hs := h2 s hfd
    cases r with
    | ok =>
      simp only
      refine ⟨?_, by simp, ?_⟩
      · intro id hid
        rcases h1 id hid with h | h
        · rw [hfd] at h
          simp only [Option.map_some', Option.some.injEq] at h
          exact Or.inr (by simp [h])
        · exact Or.inr (by simp only [List.map_cons, List.mem_cons]; exact Or.inr h)
      · intro id hid
        simp only [List.map_cons, List.mem_cons] at hid
        rcases hid with h | h
        · rw [h]
          exact hs.1
        · exact h3 id h
    | input_throws =>
      simp only
      rw [hfd]
      rw [hfd] at h1
      exact ⟨h1, fun t ht => by cases ht; exact hs, h3⟩
    | output_throws =>
      simp only
      rw [hfd] at h1
      exact ⟨h1, fun t ht => by cases ht; exact hs, h3⟩

theorem sockets_ok_step (c : client) (e : event) (h : c.sockets_ok) : (c.step e).sockets_ok := by
  rcases sock_step c e with ⟨h1, h2, h3⟩ | ⟨r, h1, h2, h3⟩ | ⟨_, h1, h2, h3⟩
  · unfold client.sockets_ok at *
    rw [h1, h2, h3]
    exact h
  · have := sockets_ok_shutdown c r h
    unfold client.sockets_ok
    rw [h1, h2, h3]
    exact this
  · obtain ⟨a1, a2, a3⟩ := h
    unfold client.sockets_ok
    rw [h1, h2, h3]
    refine ⟨?_, ?_, ?_⟩
    · intro id hid
      by_cases hlt : id < c.next_socket
      · right
        rcases a1 id hlt with h | h
        · cases hfd : c.fd with
          | none => simp [hfd] at h
          | some s =>
            rw [hfd] at h
            simp only [Option.map_some', Option.some.injEq] at h
            simp [h]
        · simp [h]
      · left
        simp only [Option.map_some', Option.some.injEq]
        omega
    · intro s hs
      cases hs
      simp only
      refine ⟨by omega, ?_⟩
      intro hmem
      simp only [List.map_append, List.mem_append] at hmem
      rcases hmem with hm | hm
      · cases hfd : c.fd with
        | none => simp [hfd] at hm
        | some s =>
          have := (a2 s hfd).1
          simp [hfd] at hm
          omega
      · have := a3 _ hm
        omega
    · intro id hid
      simp only [List.map_append, List.mem_append] at hid
      rcases hid with hm | hm
      · cases hfd : c.fd with
        | none => simp [hfd] at hm
        | some s =>
          have := (a2 s hfd).1
          simp [hfd] at hm
          omega
      · have := a3 _ hm
        omega

theorem sockets_ok_run (es : List event) (c : client) (h : c.sockets_ok) :
    (c.run es).sockets_ok := by
  induction es generalizing c with
  | nil => exact h
  | cons e rest ih => exact ih (c.step e) (sockets_ok_step c e h)

theorem sockets_ok_init (m hs : Nat) : (client.init m hs).sockets_ok := by
  unfold client.sockets_ok
  simp [client.init]

/-! ## Draining the gate -/

theorem run_leaves (n : Nat) (c : client) (h : c.leaves_due ≤ n) :
    (c.run (List.replicate n .run_leave)).leaves_due = 0 ∧
    (c.run (List.replicate n .run_leave)).correlations = c.correlations ∧
    (c.run (List.replicate n .run_leave)).writes = c.writes ∧
    (c.run (List.replicate n .run_leave)).readers = c.readers ∧
    (c.run (List.replicate n .run_leave)).dispatch_gate.stopped = c.dispatch_gate.stopped := by
  induction n generalizing c with
  | zero =>
    have h0 : c.run (List.replicate 0 .run_leave) = c := rfl
    rw [h0]
    exact ⟨by omega, rfl, rfl, rfl, rfl⟩
  | succ k ih =>
    rw [List.replicate_succ, run_cons]
    have hstep : (c.step .run_leave).leaves_due = c.leaves_due - 1 ∧
        (c.step .run_leave).correlations = c.correlations ∧
        (c.step .run_leave).writes = c.writes ∧
        (c.step .run_leave).readers = c.readers ∧
        (c.step .run_leave).dispatch_gate.stopped = c.dispatch_gate.stopped := by
      simp only [client.step, client.run_leave]
      split
      · rename_i h0
        exact ⟨by omega, rfl, rfl, rfl, rfl⟩
      · exact ⟨rfl, rfl, rfl, rfl, rfl⟩
    obtain ⟨h1, h2, h3, h4, h5⟩ := hstep
    obtain ⟨i1, i2, i3, i4, i5⟩ := ih (c.step .run_leave) (by omega)
    exact ⟨i1, i2.trans h2, i3.trans h3, i4.trans h4, i5.trans h5⟩

theorem run_writes (n : Nat) (ok : Bool) (c : client) (h : c.writes.length ≤ n) :
    (c.run (List.replicate n (.write_done ok))).writes = [] ∧
    (c.run (List.replicate n (.write_done ok))).correlations = c.correlations ∧
    (c.run (List.replicate n (.write_done ok))).leaves_due = c.leaves_due ∧
    (c.run (List.replicate n (.write_done ok))).readers = c.readers ∧
    (c.run (List.replicate n (.write_done ok))).dispatch_gate.stopped =
      c.dispatch_gate.stopped := by
  induction n generalizing c with
  | zero =>
    have h0 : c.run (List.replicate 0 (.write_done ok)) = c := rfl
    rw [h0]
    exact ⟨List.eq_nil_of_length_eq_zero (by omega), rfl, rfl, rfl, rfl⟩
  | succ k ih =>
    rw [List.replicate_succ, run_cons]
    have hstep : (c.step (.write_done ok)).writes.length = c.writes.length - 1 ∧
        (c.step (.write_done ok)).correlations = c.correlations ∧
        (c.step (.write_done ok)).leaves_due = c.leaves_due ∧
        (c.step (.write_done ok)).readers = c.readers ∧
        (c.step (.write_done ok)).dispatch_gate.stopped = c.dispatch_gate.stopped := by
      simp only [client.step, client.write_done]
      split
      · rename_i h0
        exact ⟨by simp [h0], rfl, rfl, rfl, rfl⟩
      · rename_i m rest h0
        exact ⟨by simp [h0], rfl, rfl, rfl, rfl⟩
    obtain ⟨h1, h2, h3, h4, h5⟩ := hstep
    obtain ⟨i1, i2, i3, i4, i5⟩ := ih (c.step (.write_done ok)) (by omega)
    exact ⟨i1, i2.trans h2, i3.trans h3, i4.trans h4, i5.trans h5⟩

theorem loop_check_frame (c : client) (i : Nat) :
    (c.loop_check i).correlations = c.correlations ∧
    (c.loop_check i).leaves_due = c.leaves_due ∧
    (c.loop_check i).writes = c.writes ∧
    (c.loop_check i).dispatch_gate.stopped = c.dispatch_gate.stopped := by
  unfold client.loop_check client.reads_done
  split <;> exact ⟨rfl, rfl, rfl, rfl⟩

theorem round_frame (c : client) :
    (c.run [.body_parsed 0, .header_read 0 none true .ok]).correlations = c.correlations ∧
    (c.run [.body_parsed 0, .header_read 0 none true .ok]).leaves_due = c.leaves_due ∧
    (c.run [.body_parsed 0, .header_read 0 none true .ok]).writes = c.writes ∧
    (c.run [.body_parsed 0, .header_read 0 none true .ok]).dispatch_gate.stopped =
      c.dispatch_gate.stopped := by
  have h1 : (c.body_parsed 0).correlations = c.correlations ∧
      (c.body_parsed 0).leaves_due = c.leaves_due ∧ (c.body_parsed 0).writes = c.writes ∧
      (c.body_parsed 0).dispatch_gate.stopped = c.dispatch_gate.stopped := by
    unfold client.body_parsed
    split
    · exact loop_check_frame _ 0
    · exact ⟨rfl, rfl, rfl, rfl⟩
  have h2 : ∀ d : client, (d.header_read 0 none true .ok).correlations = d.correlations ∧
      (d.header_read 0 none true .ok).leaves_due = d.leaves_due ∧
      (d.header_read 0 none true .ok).writes = d.writes ∧
      (d.header_read 0 none true .ok).dispatch_gate.stopped = d.dispatch_gate.stopped := by
    intro d
    unfold client.header_read
    split
    · exact loop_check_frame _ 0
    · exact ⟨rfl, rfl, rfl, rfl⟩
  obtain ⟨a1, a2, a3, a4⟩ := h1
  obtain ⟨b1, b2, b3, b4⟩ := h2 (c.body_parsed 0)
  exact ⟨b1.trans a1, b2.trans a2, b3.trans a3, b4.trans a4⟩

theorem eof_read_length (d : client) :
    (d.header_read 0 none true .ok).readers.length ≤ d.readers.length ∧
    (∀ rest, d.readers = .awaiting_header :: rest →
      (d.header_read 0 none true .ok).readers = rest) := by
  unfold client.header_read
  split
  · simp only [client.loop_check, client.is_valid, Bool.or_true, Bool.not_true, Bool.and_false,
      Bool.not_false, if_true, client.reads_done]
    refine ⟨?_, ?_⟩
    · rw [List.length_eraseIdx]
      split <;> omega
    · intro rest hr
      simp [hr]
  · refine ⟨le_refl _, ?_⟩
    intro rest hr
    rename_i hn
    simp [hr] at hn

theorem round_length (c : client) (h : 0 < c.readers.length) :
    (c.run [.body_parsed 0, .header_read 0 none true .ok]).readers.length + 1 ≤
      c.readers.length := by
  simp only [client.run, List.foldl, client.step]
  cases hr : c.readers with
  | nil => simp [hr] at h
  | cons s rest =>
    cases s with
    | awaiting_header =>
      have hb : c.body_parsed 0 = c := by simp [client.body_parsed, hr]
      rw [hb, (eof_read_length c).2 rest hr]
      simp
    | awaiting_body =>
      unfold client.body_parsed client.loop_check
      simp only [hr, List.get?_cons_zero, if_true]
      split
      · have := (eof_read_length (({ c with probe := c.probe ++
          [probe_event.request_completed] } : client).reads_done 0)).1
        simp only [client.reads_done, hr, List.eraseIdx_cons_zero] at this ⊢
        simp only [List.length_cons]
        omega
      · rw [(eof_read_length _).2 rest (by simp [hr])]
        simp

theorem run_rounds (n : Nat) (c : client) (h : c.readers.length ≤ n) :
    (c.run (List.replicate n [event.body_parsed 0,
      event.header_read 0 none true .ok]).flatten).readers = [] ∧
    (c.run (List.replicate n [event.body_parsed 0,
      event.header_read 0 none true .ok]).flatten).correlations = c.correlations ∧
    (c.run (List.replicate n [event.body_parsed 0,
      event.header_read 0 none true .ok]).flatten).leaves_due = c.leaves_due ∧
    (c.run (List.replicate n [event.body_parsed 0,
      event.header_read 0 none true .ok]).flatten).writes = c.writes ∧
    (c.run (List.replicate n [event.body_parsed 0,
      event.header_read 0 none true .ok]).flatten).dispatch_gate.stopped =
      c.dispatch_gate.stopped := by
  induction n generalizing c with
  | zero =>
    have h0 : c.run (List.replicate 0 [event.body_parsed 0,
        event.header_read 0 none true .ok]).flatten = c := rfl
    rw [h0]
    exact ⟨List.eq_nil_of_length_eq_zero (by omega), rfl, rfl, rfl, rfl⟩
  | succ k ih =>
    rw [List.replicate_succ, List.flatten_cons, run_append]
    obtain ⟨f1, f2, f3, f4⟩ := round_frame c
    have hlen : (c.run [.body_parsed 0, .header_read 0 none true .ok]).readers.length ≤ k := by
      by_cases h0 : 0 < c.readers.length
      · have := round_length c h0
        omega
      · have hnil : c.readers = [] := List.eq_nil_of_length_eq_zero (by omega)
        have : c.run [.body_parsed 0, .header_read 0 none true .ok] = c := by
          simp [client.run, client.step, client.body_parsed, client.header_read, hnil]
        rw [this]
        omega
    obtain ⟨i1, i2, i3, i4, i5⟩ := ih _ hlen
    exact ⟨i1, i2.trans f1, i3.trans f2, i4.trans f3, i5.trans f4⟩

theorem drain_script_plain (c : client) :
    c.drain_script.all (fun e => !e.is_connect) = true := by
  rw [List.all_eq_true]
  intro e he
  unfold client.drain_script at he
  simp only [List.mem_append, List.mem_replicate, List.mem_flatten] at he
  rcases he with (⟨_, h⟩ | ⟨_, h⟩) | ⟨l, ⟨_, hl⟩, h⟩
  · subst h
    rfl
  · subst h
    rfl
  · subst hl
    simp only [List.mem_cons, List.mem_singleton, List.not_mem_nil, or_false] at h
    rcases h with h | h <;> subst h <;> rfl

theorem drain_script_drains (c : client) (hg : c.gate_ok) (ht : c.correlations = [])
    (hs : c.dispatch_gate.stopped = true) :
    (c.run c.drain_script).stop_resolved = true ∧ (c.run c.drain_script).correlations = [] := by
  have hok := (plain_run c.drain_script c (drain_script_plain c)).1 hg
  unfold client.drain_script at *
  rw [run_append, run_append] at hok ⊢
  obtain ⟨a1, a2, a3, a4, a5⟩ := run_leaves c.leaves_due c (le_refl _)
  generalize c.run (List.replicate c.leaves_due .run_leave) = c1 at *
  obtain ⟨b1, b2, b3, b4, b5⟩ := run_writes c.writes.length false c1 (by rw [a3])
  generalize c1.run (List.replicate c.writes.length (.write_done false)) = c2 at *
  obtain ⟨d1, d2, d3, d4, d5⟩ := run_rounds c.readers.length c2 (by rw [b4, a4])
  generalize c2.run (List.replicate c.readers.length [event.body_parsed 0,
      event.header_read 0 none true .ok]).flatten = c3 at *
  unfold client.gate_ok at hok
  rw [d1, d2, d3, d4, b1, b2, b3, a1, a2, ht] at hok
  simp only [List.length_nil, add_zero] at hok
  refine ⟨?_, by rw [d2, b2, a2, ht]⟩
  simp [client.stop_resolved, gate.drained, hok, d5, b5, a5, hs]

theorem shutdown_frame (c : client) (r : shutdown_outcome) :
    (c.shutdown r).dispatch_gate = c.dispatch_gate ∧
    (c.shutdown r).leaves_due = c.leaves_due ∧
    (c.shutdown r).writes = c.writes ∧
    (c.shutdown r).readers = c.readers := by
  unfold client.shutdown
  cases c.fd <;> cases r <;> exact ⟨rfl, rfl, rfl, rfl⟩

theorem fail_gate (c : client) (r : shutdown_outcome) :
    (c.fail_outstanding_futures r).dispatch_gate = c.dispatch_gate := by
  simp [client.fail_outstanding_futures, (shutdown_frame c r).1]

theorem closed_empty_loop_check (c : client) (i : Nat) (hs : c.dispatch_gate.stopped = true)
    (ht : c.correlations = []) :
    (c.loop_check i).dispatch_gate.stopped = true ∧ (c.loop_check i).correlations = [] := by
  obtain ⟨h1, _, _, h4⟩ := loop_check_frame c i
  exact ⟨h4.trans hs, h1.trans ht⟩

theorem closed_empty_reads_failed (c : client) (i : Nat) (r : shutdown_outcome)
    (hs : c.dispatch_gate.stopped = true) :
    (c.reads_failed i r).dispatch_gate.stopped = true ∧ (c.reads_failed i r).correlations = [] := by
  have h1 := fail_gate { c with probe := c.probe ++ [probe_event.connection_closed] } r
  have h2 := (fail_book { c with probe := c.probe ++ [probe_event.connection_closed] } r).1
  simp only [client.reads_failed, gate.leave]
  exact ⟨by rw [h1]; exact hs, h2⟩

theorem closed_empty_step (c : client) (e : event) (hs : c.dispatch_gate.stopped = true)
    (ht : c.correlations = []) (he : e.is_connect = false) :
    (c.step e).dispatch_gate.stopped = true ∧ (c.step e).correlations = [] := by
  cases e with
  | send b =>
    simp only [client.step]
    rw [send_invalid c b (Or.inr hs)]
    exact ⟨hs, ht⟩
  | dispatch hd =>
    simp only [client.step]
    rw [dispatch_unknown c hd (by rw [ht]; rfl)]
    exact ⟨hs, ht⟩
  | fail_outstanding_futures r =>
    exact ⟨by simp only [client.step]; rw [fail_gate]; exact hs, (fail_book c r).1⟩
  | stop r => exact ⟨stopped_stop c r, (fail_book c r).1⟩
  | connect r => simp [event.is_connect] at he
  | connect_continue => simp [event.is_connect] at he
  | do_connect_continue net => simp [event.is_connect] at he
  | header_read i hd eof r =>
    simp only [client.step, client.header_read]
    split
    · cases hd with
      | none => exact closed_empty_loop_check _ i hs ht
      | some x =>
        simp only
        rw [dispatch_unknown _ x (by simp only [ht]; rfl)]
        exact closed_empty_reads_failed _ i r hs
    · exact ⟨hs, ht⟩
  | read_failed i r =>
    simp only [client.step, client.read_failed]
    split
    · exact closed_empty_reads_failed c i r hs
    · exact ⟨hs, ht⟩
  | body_parsed i =>
    simp only [client.step, client.body_parsed]
    split
    · exact closed_empty_loop_check _ i hs ht
    · exact ⟨hs, ht⟩
  | write_done ok =>
    simp only [client.step, client.write_done]
    split
    · exact ⟨hs, ht⟩
    · exact ⟨hs, ht⟩
  | run_leave =>
    simp only [client.step, client.run_leave]
    split
    · exact ⟨hs, ht⟩
    · exact ⟨hs, ht⟩
  | reserve_memory ask => exact ⟨hs, ht⟩
  | release_memory n => exact ⟨hs, ht⟩

theorem closed_empty_run (es : List event) (c : client) (hs : c.dispatch_gate.stopped = true)
    (ht : c.correlations = []) (he : es.all (fun e => !e.is_connect) = true) :
    (c.run es).dispatch_gate.stopped = true ∧ (c.run es).correlations = [] := by
  induction es generalizing c with
  | nil => exact ⟨hs, ht⟩
  | cons e rest ih =>
    simp only [List.all_cons, Bool.and_eq_true, Bool.not_eq_true'] at he
    obtain ⟨h1, h2⟩ := closed_empty_step c e hs ht he.1
    exact ih (c.step e) h1 h2 he.2

theorem released_stop_ok (c : client) (s : connected_socket) (h : c.fd = some s) :
    (c.stop .ok).released = { s with input_shut := true, output_shut := true } :: c.released := by
  simp [client.stop, client.fail_outstanding_futures, client.shutdown, h]

theorem count_of_resolved (c : client) (h : c.stop_resolved = true) :
    c.dispatch_gate.count = 0 := by
  simp [client.stop_resolved, gate.drained] at h
  exact h.2

theorem stop_of_stopped (d : client) (r : shutdown_outcome) (hfd : d.fd = none)
    (ht : d.correlations = []) (hs : d.dispatch_gate.stopped = true) : d.stop r = d := by
  obtain ⟨max_queued_bytes, header_size, memory, fd, in_eof, out, correlation_idx,
    correlations, dispatch_gate, probe, next_promise, completed, leaves_due, writes, readers,
    next_socket, released, stop_waiters, conts_ready, connecting⟩ := d
  obtain ⟨count, stopped⟩ := dispatch_gate
  simp only at hfd ht hs
  subst hfd ht hs
  simp [client.stop, client.fail_outstanding_futures, client.shutdown, gate.close, promises]

theorem stop_stop_same (c : client) (r : shutdown_outcome) : (c.stop r).stop r = c.stop r := by
  obtain ⟨max_queued_bytes, header_size, memory, fd, in_eof, out, correlation_idx,
    correlations, dispatch_gate, probe, next_promise, completed, leaves_due, writes, readers,
    next_socket, released, stop_waiters, conts_ready, connecting⟩ := c
  obtain ⟨count, stopped⟩ := dispatch_gate
  cases fd <;> cases r <;>
    simp [client.stop, client.fail_outstanding_futures, client.shutdown, gate.close, promises]

/-! ## Send on a connection that is not valid -/

/-- C4, as amended: `send` on a connection that is not valid or with a closed gate
returns the failed future and leaves the whole state as it was (no write, no id
reserved, nothing registered, gate not entered). Right after `stop()` that is
the case, and after a `stop()` that released the socket or found none it stays
the case through every sequence of events in which no network connect started
by `do_connect` hands over a socket. -/
theorem send_fails_when_not_connected (c : client) (b : netbuf) (r : shutdown_outcome)
    (es : List event) :
    ((c.is_valid = false ∨ c.dispatch_gate.is_closed = true) →
      c.send b = (.failed "cannot send payload with invalid connection", c)) ∧
    (c.stop r).send b =
      (.failed "cannot send payload with invalid connection", c.stop r) ∧
    ((c.fd = none ∨ r = .ok) → (∀ e ∈ es, e ≠ event.do_connect_continue true) →
      ((c.stop r).run es).send b =
        (.failed "cannot send payload with invalid connection", (c.stop r).run es)) := by
  refine ⟨fun h => send_invalid c b h, send_invalid _ b (Or.inr (stopped_stop c r)), ?_⟩
  intro h hc
  have := fd_none_run es _ (fd_stop c r h) hc
  exact send_invalid _ b (Or.inl (by simp [client.is_valid, this]))

/-- Witness for C4 as amended: a connected client with one request pending is
stopped; the reply arrives, the background tasks finish, and a `connect()` gets
as far as the network connect, which fails; the gate is new and open, and `send`
still fails. -/
theorem send_fails_when_not_connected_witness :
    ((((client.init 100 16).run [.connect .ok, .connect_continue, .do_connect_continue true,
        .send ⟨0, 60⟩]).stop .ok).run
          [.header_read 0 (some ⟨5, 1, 0⟩) false .ok, .run_leave, .write_done true,
           .connect .ok]).connect_continue.1 = true ∧
    ((((client.init 100 16).run [.connect .ok, .connect_continue, .do_connect_continue true,
        .send ⟨0, 60⟩]).stop .ok).run
          [.header_read 0 (some ⟨5, 1, 0⟩) false .ok, .run_leave, .write_done true,
           .connect .ok, .connect_continue, .do_connect_continue false]).dispatch_gate =
      { count := 0, stopped := false } ∧
    (((((client.init 100 16).run [.connect .ok, .connect_continue, .do_connect_continue true,
        .send ⟨0, 60⟩]).stop .ok).run
          [.header_read 0 (some ⟨5, 1, 0⟩) false .ok, .run_leave, .write_done true,
           .connect .ok, .connect_continue, .do_connect_continue false]).send ⟨0, 9⟩).1 =
      .failed "cannot send payload with invalid connection" :=
  ⟨by decide, by decide,
   congrArg Prod.fst ((send_fails_when_not_connected
     ((client.init 100 16).run [.connect .ok, .connect_continue, .do_connect_continue true,
       .send ⟨0, 60⟩])
     ⟨0, 9⟩ .ok [.header_read 0 (some ⟨5, 1, 0⟩) false .ok, .run_leave, .write_done true,
       .connect .ok, .connect_continue, .do_connect_continue false]).2.2 (Or.inr rfl)
       (by decide))⟩

/-- Counterexample to C4 as stated, with no shutdown call throwing: a second
`connect()` is called while the first awaits the network, and its `stop()` closes
the gate. The socket of the first then arrives: it is installed, the read loop
cannot enter the closed gate, and the first `connect()` fails. The continuation
of the second installs a new gate and fails the check of `do_connect`, the
connection being valid. No `connect()` has succeeded since that `stop()`, yet
`send` registers request 1, writes it and returns a pending future, while no
read loop runs. -/
theorem send_after_stop_counterexample :
    (((client.init 100 16).run [.connect .ok, .connect_continue,
        .connect .ok]).do_connect_continue true).1 = false ∧
    ((client.init 100 16).run [.connect .ok, .connect_continue, .connect .ok,
        .do_connect_continue true]).connect_continue.1 = false ∧
    (((client.init 100 16).run [.connect .ok, .connect_continue, .connect .ok,
        .do_connect_continue true, .connect_continue]).send ⟨0, 10⟩).1 = .pending 1 0 ∧
    (((client.init 100 16).run [.connect .ok, .connect_continue, .connect .ok,
        .do_connect_continue true, .connect_continue]).send ⟨0, 10⟩).2.out = [⟨1, 10⟩] ∧
    ((client.init 100 16).run [.connect .ok, .connect_continue, .connect .ok,
        .do_connect_continue true, .connect_continue]).readers = [] := by
  decide

/-! ## Drain on stop -/

theorem stop_socket (c : client) (r : shutdown_outcome) (s : connected_socket)
    (h : c.fd = some s) :
    (r = .ok → (c.stop r).fd = none ∧ (c.stop r).released = s.shut :: c.released) ∧
    (r = .input_throws → (c.stop r).fd = some s ∧ (c.stop r).released = c.released) ∧
    (r = .output_throws →
      (c.stop r).fd = some { s with input_shut := true } ∧ (c.stop r).released = c.released) := by
  unfold client.stop client.fail_outstanding_futures client.shutdown
  refine ⟨?_, ?_, ?_⟩ <;> intro hr <;> subst hr <;> simp [h, connected_socket.shut]

/-- C5, what the code does. For every client state `stop()` empties the table,
completes each of the pending promises, and no other, with the error of
`fail_outstanding_futures`, and closes the gate; through every later sequence of
events other than a connect the table stays empty, when the future of `stop()`
resolves the in-flight count is zero, and from a state with sound gate
bookkeeping it does resolve once the background tasks have run. With no socket
held none is held afterwards, and when both shutdown calls return the socket
is shut down on both halves and released. At the failing input the socket is
neither: `stop()` on a connected client with two pending requests whose
`shutdown_input` throws fails both requests, but the socket is still held with
neither half shut down and nothing is released, also once the future of
`stop()` has resolved; when `shutdown_output` throws it is held with only its
input half shut down. -/
theorem stop_drains (c : client) (r : shutdown_outcome) (es : List event) :
    (((client.init 100 16).run [.connect .ok, .connect_continue, .do_connect_continue true,
        .send ⟨0, 60⟩, .send ⟨0, 60⟩]).pending = [0, 1] ∧
      (((client.init 100 16).run [.connect .ok, .connect_continue, .do_connect_continue true,
        .send ⟨0, 60⟩, .send ⟨0, 60⟩]).stop .input_throws).completed =
        [(0, .exception "failing outstanding futures"),
         (1, .exception "failing outstanding futures")] ∧
      (((client.init 100 16).run [.connect .ok, .connect_continue, .do_connect_continue true,
        .send ⟨0, 60⟩, .send ⟨0, 60⟩]).stop .input_throws).fd =
        some { id := 0, input_shut := false, output_shut := false } ∧
      (((client.init 100 16).run [.connect .ok, .connect_continue, .do_connect_continue true,
        .send ⟨0, 60⟩, .send ⟨0, 60⟩]).stop .input_throws).released = [] ∧
      ((client.init 100 16).run [.connect .ok, .connect_continue, .do_connect_continue true,
        .send ⟨0, 60⟩, .send ⟨0, 60⟩, .stop .input_throws, .run_leave, .run_leave,
        .write_done true, .write_done true, .header_read 0 none true .ok]).stop_resolved = true ∧
      ((client.init 100 16).run [.connect .ok, .connect_continue, .do_connect_continue true,
        .send ⟨0, 60⟩, .send ⟨0, 60⟩, .stop .input_throws, .run_leave, .run_leave,
        .write_done true, .write_done true, .header_read 0 none true .ok]).fd =
        some { id := 0, input_shut := false, output_shut := false } ∧
      ((client.init 100 16).run [.connect .ok, .connect_continue, .do_connect_continue true,
        .send ⟨0, 60⟩, .send ⟨0, 60⟩, .stop .input_throws, .run_leave, .run_leave,
        .write_done true, .write_done true, .header_read 0 none true .ok]).released = []) ∧
    (c.stop r).correlations = [] ∧
    (c.stop r).completed = c.completed ++
      c.pending.map (fun p => (p, outcome.exception "failing outstanding futures")) ∧
    (c.stop r).dispatch_gate.stopped = true ∧
    (c.fd = none → (c.stop r).fd = none) ∧
    (∀ s, c.fd = some s →
      (r = .ok → (c.stop r).fd = none ∧ (c.stop r).released = s.shut :: c.released) ∧
      (r = .input_throws → (c.stop r).fd = some s ∧ (c.stop r).released = c.released) ∧
      (r = .output_throws → (c.stop r).fd = some { s with input_shut := true } ∧
        (c.stop r).released = c.released)) ∧
    (es.all (fun e => !e.is_connect) = true →
      ((c.stop r).run es).correlations = [] ∧
      (((c.stop r).run es).stop_resolved = true →
        ((c.stop r).run es).dispatch_gate.count = 0)) ∧
    (c.gate_ok →
      ((c.stop r).run (c.stop r).drain_script).stop_resolved = true ∧
      ((c.stop r).run (c.stop r).drain_script).dispatch_gate.count = 0 ∧
      ((c.stop r).run (c.stop r).drain_script).correlations = []) := by
  have hempty : (c.stop r).correlations = [] := (fail_book c r).1
  refine ⟨by decide, hempty, (fail_book c r).2.1, stopped_stop c r,
    fun h => fd_stop c r (Or.inl h), fun s hs => stop_socket c r s hs, ?_, ?_⟩
  · intro he
    exact ⟨(closed_empty_run es _ (stopped_stop c r) hempty he).2, count_of_resolved _⟩
  · intro hg
    obtain ⟨h1, h2⟩ := drain_script_drains (c.stop r) (gate_ok_stop c r hg) hempty
      (stopped_stop c r)
    exact ⟨h1, count_of_resolved _ h1, h2⟩

/-! ## A second stop -/

/-- C6, what the code does. A second `stop()` whose shutdown calls fare as those of
the first leaves the state of the first; and after a `stop()` that released the
socket or found none, whatever events other than a connect have happened
since, a second `stop()` changes nothing: no socket, an empty table, the gate
closed. At the failing input the second `stop()` does change the state: the
first `stop()` of a connected client meets a throwing `shutdown_input` and its
future resolves (the read loop ends at the end of the stream) with the socket
still held and not shut down; the second `stop()` then shuts the socket down
and releases it, so the state after two stops is not the state after one. -/
theorem stop_twice (c : client) (r r2 : shutdown_outcome) (es : List event) :
    (((client.init 100 16).run [.connect .ok, .connect_continue, .do_connect_continue true,
        .stop .input_throws, .header_read 0 none true .ok]).stop_resolved = true ∧
      ((client.init 100 16).run [.connect .ok, .connect_continue, .do_connect_continue true,
        .stop .input_throws, .header_read 0 none true .ok]).fd =
        some { id := 0, input_shut := false, output_shut := false } ∧
      (((client.init 100 16).run [.connect .ok, .connect_continue, .do_connect_continue true,
        .stop .input_throws, .header_read 0 none true .ok]).stop .ok).fd = none ∧
      (((client.init 100 16).run [.connect .ok, .connect_continue, .do_connect_continue true,
        .stop .input_throws, .header_read 0 none true .ok]).stop .ok).released =
        [{ id := 0, input_shut := true, output_shut := true }] ∧
      ((client.init 100 16).run [.connect .ok, .connect_continue, .do_connect_continue true,
        .stop .input_throws, .header_read 0 none true .ok]).stop .ok ≠
      (client.init 100 16).run [.connect .ok, .connect_continue, .do_connect_continue true,
        .stop .input_throws, .header_read 0 none true .ok]) ∧
    (c.stop r).stop r = c.stop r ∧
    ((c.fd = none ∨ r = .ok) → es.all (fun e => !e.is_connect) = true →
      ((c.stop r).run es).stop r2 = (c.stop r).run es ∧
      ((c.stop r).run es).fd = none ∧
      ((c.stop r).run es).correlations = [] ∧
      ((c.stop r).run es).dispatch_gate.stopped = true) := by
  refine ⟨by decide, stop_stop_same c r, ?_⟩
  intro hrel he
  have hne : ∀ e ∈ es, e ≠ event.do_connect_continue true := by
    intro e hmem heq
    rw [List.all_eq_true] at he
    have := he e hmem
    rw [heq] at this
    simp [event.is_connect] at this
  have hfd := fd_none_run es _ (fd_stop c r hrel) hne
  obtain ⟨hs, ht⟩ := closed_empty_run es _ (stopped_stop c r) (fail_book c r).1 he
  exact ⟨stop_of_stopped _ r2 hfd ht hs, hfd, ht, hs⟩

/-! ## An awaited connect -/

theorem sequential_of_plain (es : List event) (c : client)
    (he : es.all (fun e => !e.is_connect) = true) : c.sequential es = true := by
  induction es generalizing c with
  | nil => rfl
  | cons e rest ih =>
    simp only [List.all_cons, Bool.and_eq_true, Bool.not_eq_true'] at he
    simp only [client.sequential, Bool.and_eq_true]
    refine ⟨?_, ih _ he.2⟩
    cases e <;> first | rfl | simp [event.is_connect] at he

theorem idle_iff (c : client) :
    c.idle = true ↔ c.stop_waiters = 0 ∧ c.conts_ready = 0 ∧ c.connecting = 0 := by
  simp [client.idle, and_assoc]

/-- The state in which the continuation of an awaited `connect()` finds the client:
the call, then background events. -/
theorem connect_drained (c : client) (r : shutdown_outcome) (d : List event)
    (ho : c.orderly) (hi : c.idle = true) (hd : d.all (fun e => !e.is_connect) = true) :
    ((c.connect r).run d).orderly ∧
    ((c.connect r).run d).stop_waiters = 1 ∧
    ((c.connect r).run d).conts_ready = 0 ∧
    ((c.connect r).run d).connecting = 0 := by
  obtain ⟨i1, i2, i3⟩ := (idle_iff c).mp hi
  have ho1 : (c.connect r).orderly := orderly_step c (.connect r) ho hi
  obtain ⟨s1, s2, s3, _, _⟩ := stop_conn c r
  obtain ⟨_, p1, p2, p3⟩ := plain_run d (c.connect r) hd
  refine ⟨orderly_run d _ ho1 (sequential_of_plain d _ hd), ?_, ?_, ?_⟩
  · rw [p1]
    simp only [client.connect]
    omega
  · rw [p2]
    exact s2.trans i2
  · rw [p3]
    exact s3.trans i3

/-- What the two continuations of a `connect()` do when its `stop()` has resolved,
the check of `do_connect` passes and the network hands over a socket. -/
theorem connect_continue_fresh (x : client) (ho : x.orderly) (hw : x.stop_waiters = 1)
    (hc : x.connecting = 0) (hok : x.connect_continue.1 = true) :
    x.readers = [] ∧
    ((x.step .connect_continue).step (.do_connect_continue true)).freshly_connected ∧
    ((x.step .connect_continue).step (.do_connect_continue true)).next_socket =
      x.next_socket + 1 ∧
    ((x.step .connect_continue).step (.do_connect_continue true)).released =
      x.fd.toList ++ x.released := by
  obtain ⟨hg, hr, _, _⟩ := ho
  rcases connect_continue_cases x hr with ⟨h1, _⟩ | ⟨hd, _, h1⟩
  · rw [h1] at hok
    cases hok
  · obtain ⟨e1, e2, e3, e4⟩ := empty_of_drained x hg hd
    rw [h1] at hok
    simp only [client.step, h1]
    rcases do_connect_cases { x with
        dispatch_gate := gate.fresh
        conts_ready := x.stop_waiters - 1
        stop_waiters := 0 } with ⟨d1, _⟩ | ⟨d1, _, _⟩
    · rw [d1] at hok
      cases hok
    · rw [d1]
      refine ⟨e4, ?_, ?_, ?_⟩ <;>
        simp [client.do_connect_continue, client.freshly_connected, gate.fresh, gate.enter,
          gate.is_closed, client.idle, e1, e2, e3, e4, hw, hc]

theorem connect_fresh (c : client) (r : shutdown_outcome) (d : List event)
    (ho : c.orderly) (hi : c.idle = true) (hd : d.all (fun e => !e.is_connect) = true)
    (hok : c.connect_ok r d = true) :
    ((c.connect r).run d).readers = [] ∧
    (c.connect_awaited r d true).freshly_connected ∧
    (c.connect_awaited r d true).next_socket = ((c.connect r).run d).next_socket + 1 ∧
    (c.connect_awaited r d true).released =
      ((c.connect r).run d).fd.toList ++ ((c.connect r).run d).released := by
  obtain ⟨x1, x2, _, x4⟩ := connect_drained c r d ho hi hd
  exact connect_continue_fresh _ x1 x2 x4 hok

theorem orderly_connect_awaited (c : client) (r : shutdown_outcome) (d : List event)
    (net : Bool) (ho : c.orderly) (hi : c.idle = true)
    (hd : d.all (fun e => !e.is_connect) = true) : (c.connect_awaited r d net).orderly := by
  obtain ⟨x1, _, _, _⟩ := connect_drained c r d ho hi hd
  exact orderly_step _ _ (orderly_step _ _ x1 rfl) rfl

theorem sockets_ok_connect_awaited (c : client) (r : shutdown_outcome) (d : List event)
    (net : Bool) (hk : c.sockets_ok) : (c.connect_awaited r d net).sockets_ok :=
  sockets_ok_step _ _ (sockets_ok_step _ _ (sockets_ok_run d _ (sockets_ok_step c (.connect r) hk)))

/-- In a freshly connected state with sound socket bookkeeping every socket
created before the one held has been destroyed. -/
theorem earlier_sockets_released (c : client) (hf : c.freshly_connected) (hk : c.sockets_ok)
    (id : Nat) (h : id < c.next_socket - 1) : id ∈ c.released.map connected_socket.id := by
  obtain ⟨_, hfd, _⟩ := hf
  rcases hk.1 id (by omega) with h1 | h1
  · rw [hfd] at h1
    simp only [Option.map_some', Option.some.injEq] at h1
    omega
  · exact h1

theorem next_socket_step (c : client) (e : event) : c.next_socket ≤ (c.step e).next_socket := by
  rcases sock_step c e with ⟨_, _, h⟩ | ⟨r, _, _, h⟩ | ⟨_, _, _, h⟩ <;> omega

theorem next_socket_run (es : List event) (c : client) :
    c.next_socket ≤ (c.run es).next_socket := by
  induction es generalizing c with
  | nil => exact le_refl _
  | cons e rest ih => exact le_trans (next_socket_step c e) (ih (c.step e))

/-! ## Reconnect -/

theorem stop_run_idle (c : client) (r : shutdown_outcome) (d : List event)
    (ho : c.orderly) (hi : c.idle = true) (hd : d.all (fun e => !e.is_connect) = true) :
    ((c.stop r).run d).orderly ∧ ((c.stop r).run d).idle = true := by
  obtain ⟨i1, i2, i3⟩ := (idle_iff c).mp hi
  obtain ⟨s1, s2, s3, _, _⟩ := stop_conn c r
  obtain ⟨_, p1, p2, p3⟩ := plain_run d (c.stop r) hd
  refine ⟨orderly_run d _ (orderly_step c (.stop r) ho rfl) (sequential_of_plain d _ hd), ?_⟩
  rw [idle_iff]
  exact ⟨p1.trans (s1.trans i1), p2.trans (s2.trans i2), p3.trans (s3.trans i3)⟩

theorem released_connect_awaited (c : client) (r : shutdown_outcome) (d : List event)
    (net : Bool) (s : connected_socket) (h : s ∈ (c.connect r).released) :
    s ∈ (c.connect_awaited r d net).released :=
  released_step _ _ s (released_step _ _ s (released_run d _ s h))

/-- The second of two awaited connects, or the connect after a stop: it ends
freshly connected, the read loops of before have exited when its continuation
runs, every socket created before the new one has been destroyed, and so has
the socket held before the call, shut down on both halves if the shutdown calls
of this `connect()` returned. -/
theorem reconnect_fresh (c : client) (r : shutdown_outcome) (d : List event)
    (ho : c.orderly) (hi : c.idle = true) (hk : c.sockets_ok)
    (hd : d.all (fun e => !e.is_connect) = true) (hok : c.connect_ok r d = true) :
    (c.connect_awaited r d true).freshly_connected ∧
    ((c.connect r).run d).readers = [] ∧
    (∀ id, id < (c.connect_awaited r d true).next_socket - 1 →
      id ∈ (c.connect_awaited r d true).released.map connected_socket.id) ∧
    (∀ s, c.fd = some s →
      s.id < (c.connect_awaited r d true).next_socket - 1 ∧
      (r = .ok → s.shut ∈ (c.connect_awaited r d true).released)) := by
  obtain ⟨f1, f2, f3, _⟩ := connect_fresh c r d ho hi hd hok
  have hk2 := sockets_ok_connect_awaited c r d true hk
  refine ⟨f2, f1, earlier_sockets_released _ f2 hk2, ?_⟩
  intro s hs
  have h1 := (hk.2.1 s hs).1
  have h2 : c.next_socket ≤ ((c.connect r).run d).next_socket :=
    le_trans (next_socket_step c (.connect r)) (next_socket_run d _)
  refine ⟨by omega, ?_⟩
  intro hr
  subst hr
  apply released_connect_awaited
  have := ((stop_socket c .ok s hs).1 rfl).2
  simp only [client.connect]
  rw [this]
  exact List.mem_cons_self _ _

theorem send_frame (c : client) (b : netbuf) :
    (c.send b).2.memory = c.memory ∧
    (∀ idx p, (c.send b).1 = .pending idx p →
      (c.send b).2.out = c.out ++ [b.set_correlation_id idx] ∧
      (c.send b).2.writes = c.writes ++ [b.size]) := by
  rcases send_cases c with h1 | ⟨hv, hg, q, hf⟩ | ⟨hv, hg, hf⟩
  · rw [send_invalid c b h1]
    exact ⟨rfl, fun idx p h => by cases h⟩
  · rw [send_collision c b hv hg q hf]
    exact ⟨rfl, fun idx p h => by cases h⟩
  · rw [send_fresh c b hv hg hf]
    refine ⟨rfl, ?_⟩
    intro idx p h
    simp only [send_result.pending.injEq] at h
    obtain ⟨h2, _⟩ := h
    subst h2
    exact ⟨rfl, rfl⟩

/-- C8, as amended: `send` never draws on the `max_queued_bytes` budget. It leaves
`_memory` as it is, and a send that registers a request hands the framed request
to the output stream in the same step. The budget is drawn only by
`reserve_memory(ask)` on the context of a reply, which writes nothing, is granted
at once exactly when nobody waits and `ask` units are available (they are then
taken), and otherwise queues the caller behind the earlier ones. -/
theorem send_reserves_nothing (c : client) (b : netbuf) (ask : Nat) :
    (c.send b).2.memory = c.memory ∧
    (∀ idx p, (c.send b).1 = .pending idx p →
      (c.send b).2.out = c.out ++ [b.set_correlation_id idx] ∧
      (c.send b).2.writes = c.writes ++ [b.size]) ∧
    (c.reserve_memory ask).2.out = c.out ∧
    ((c.reserve_memory ask).1 = true ↔ (c.memory.waiters = [] ∧ ask ≤ c.memory.available)) ∧
    ((c.reserve_memory ask).1 = true →
      (c.reserve_memory ask).2.memory =
        { available := c.memory.available - ask, waiters := c.memory.waiters }) ∧
    ((c.reserve_memory ask).1 = false →
      (c.reserve_memory ask).2.memory =
        { available := c.memory.available, waiters := c.memory.waiters ++ [ask] }) := by
  refine ⟨(send_frame c b).1, (send_frame c b).2, rfl, ?_, ?_, ?_⟩
  · unfold client.reserve_memory semaphore.wait
    by_cases h : (c.memory.waiters.isEmpty && decide (ask ≤ c.memory.available)) = true
    · simp only [h, if_true, true_iff]
      simpa using h
    · have h2 := h
      simp only [Bool.and_eq_true, List.isEmpty_iff, decide_eq_true_eq] at h2
      rw [if_neg h]
      simp only [Bool.false_eq_true, false_iff]
      exact h2
  · unfold client.reserve_memory semaphore.wait
    split <;> simp
  · unfold client.reserve_memory semaphore.wait
    split <;> simp

/-- Witness for C8 as amended: with a budget of 100, a send of 60 bytes is written
at once and the budget is untouched; a reservation of 60 is granted, a second
one of 60 has to wait. -/
theorem send_reserves_nothing_witness :
    (((client.init 100 16).run [.connect .ok, .connect_continue,
      .do_connect_continue true]).send ⟨0, 60⟩).1 =
      .pending 1 0 ∧
    (((client.init 100 16).run [.connect .ok, .connect_continue,
      .do_connect_continue true]).send ⟨0, 60⟩).2.out =
      [⟨1, 60⟩] ∧
    (((client.init 100 16).run [.connect .ok, .connect_continue,
      .do_connect_continue true]).reserve_memory 60).1 =
      true ∧
    (((client.init 100 16).run [.connect .ok, .connect_continue, .do_connect_continue true,
      .reserve_memory 60]).reserve_memory 60).1 = false :=
  ⟨by decide,
   ((send_reserves_nothing _ ⟨0, 60⟩ 0).2.1 1 0 (by decide)).1,
   (send_reserves_nothing ((client.init 100 16).run [.connect .ok, .connect_continue,
     .do_connect_continue true])
     ⟨0, 60⟩ 60).2.2.2.1.mpr (by decide),
   by decide⟩

/-- Counterexample to C8 as stated: with `max_queued_bytes = 100`, two sends of 60
bytes each are both handed to the output stream at once; no unit of the budget
has been taken and nobody waits on it. -/
theorem send_without_admission_counterexample :
    ((client.init 100 16).run [.connect .ok, .connect_continue,
      .do_connect_continue true, .send ⟨0, 60⟩,
      .send ⟨0, 60⟩]).out = [⟨1, 60⟩, ⟨2, 60⟩] ∧
    ((client.init 100 16).run [.connect .ok, .connect_continue,
      .do_connect_continue true, .send ⟨0, 60⟩,
      .send ⟨0, 60⟩]).writes = [60, 60] ∧
    ((client.init 100 16).run [.connect .ok, .connect_continue,
      .do_connect_continue true, .send ⟨0, 60⟩,
      .send ⟨0, 60⟩]).memory = { available := 100, waiters := [] } := by
  decide

/-! ## A header with an unknown correlation id -/

theorem header_read_unknown (c : client) (i : Nat) (h : header) (eof : Bool)
    (r : shutdown_outcome) (hloop : c.readers.get? i = some .awaiting_header)
    (hunk : find c.correlations h.correlation_id = none) :
    c.header_read i (some h) eof r =
      ({ c with in_eof := c.in_eof || eof,
                probe := c.probe ++ [probe_event.server_correlation_error] } :
        client).reads_failed i r := by
  have hd : ({ c with in_eof := c.in_eof || eof } : client).dispatch h =
      (false, { c with in_eof := c.in_eof || eof,
                       probe := c.probe ++ [probe_event.server_correlation_error] }) :=
    dispatch_unknown _ h hunk
  unfold client.header_read
  simp only [hloop, if_true]
  rw [hd]

/-- C9, what the code does. When a read loop awaiting a header decodes one whose
correlation id is not a key of the table, `dispatch` returns the failed future
and leaves the table as it is, the loop ends, and its completion handler runs
`fail_outstanding_futures`: every pending promise, and no other, is completed
with the error and the table is empty. With no socket held none is held
afterwards, and when both shutdown calls return the socket is shut down on both
halves and released. At the failing input it is not: with requests 1 and 2
pending a header with id 7 arrives and `shutdown_input` throws in the handler;
both requests are failed and the loop is gone, but the socket is still held
with neither half shut down and nothing is released. -/
theorem unknown_correlation_id (c : client) (i : Nat) (h : header) (eof : Bool)
    (r : shutdown_outcome) :
    (((client.init 100 16).run [.connect .ok, .connect_continue, .do_connect_continue true,
        .send ⟨0, 60⟩, .send ⟨0, 60⟩]).readers.get? 0 = some .awaiting_header ∧
      find ((client.init 100 16).run [.connect .ok, .connect_continue,
        .do_connect_continue true, .send ⟨0, 60⟩, .send ⟨0, 60⟩]).correlations 7 = none ∧
      (((client.init 100 16).run [.connect .ok, .connect_continue, .do_connect_continue true,
        .send ⟨0, 60⟩, .send ⟨0, 60⟩]).header_read 0 (some ⟨0, 7, 0⟩) false
          .input_throws).completed =
        [(0, .exception "failing outstanding futures"),
         (1, .exception "failing outstanding futures")] ∧
      (((client.init 100 16).run [.connect .ok, .connect_continue, .do_connect_continue true,
        .send ⟨0, 60⟩, .send ⟨0, 60⟩]).header_read 0 (some ⟨0, 7, 0⟩) false
          .input_throws).readers = [] ∧
      (((client.init 100 16).run [.connect .ok, .connect_continue, .do_connect_continue true,
        .send ⟨0, 60⟩, .send ⟨0, 60⟩]).header_read 0 (some ⟨0, 7, 0⟩) false
          .input_throws).correlations = [] ∧
      (((client.init 100 16).run [.connect .ok, .connect_continue, .do_connect_continue true,
        .send ⟨0, 60⟩, .send ⟨0, 60⟩]).header_read 0 (some ⟨0, 7, 0⟩) false
          .input_throws).fd = some { id := 0, input_shut := false, output_shut := false } ∧
      (((client.init 100 16).run [.connect .ok, .connect_continue, .do_connect_continue true,
        .send ⟨0, 60⟩, .send ⟨0, 60⟩]).header_read 0 (some ⟨0, 7, 0⟩) false
          .input_throws).released = []) ∧
    (c.readers.get? i = some .awaiting_header →
      find c.correlations h.correlation_id = none →
      (c.dispatch h).1 = false ∧
      (c.dispatch h).2.correlations = c.correlations ∧
      (c.header_read i (some h) eof r).readers = c.readers.eraseIdx i ∧
      (c.header_read i (some h) eof r).correlations = [] ∧
      (c.header_read i (some h) eof r).completed = c.completed ++
        c.pending.map (fun p => (p, outcome.exception "failing outstanding futures")) ∧
      (c.fd = none → (c.header_read i (some h) eof r).fd = none) ∧
      (∀ s, c.fd = some s →
        (r = .ok → (c.header_read i (some h) eof r).fd = none ∧
          (c.header_read i (some h) eof r).released = s.shut :: c.released) ∧
        (r = .input_throws → (c.header_read i (some h) eof r).fd = some s ∧
          (c.header_read i (some h) eof r).released = c.released) ∧
        (r = .output_throws →
          (c.header_read i (some h) eof r).fd = some { s with input_shut := true } ∧
          (c.header_read i (some h) eof r).released = c.released))) := by
  refine ⟨by decide, ?_⟩
  intro hloop hunk
  rw [dispatch_unknown c h hunk, header_read_unknown c i h eof r hloop hunk]
  refine ⟨rfl, rfl, ?_⟩
  unfold client.reads_failed client.fail_outstanding_futures client.shutdown
  cases hfd : c.fd with
  | none => simp [client.pending]
  | some s => cases r <;> simp [client.pending, connected_socket.shut]

/-! ## A header that cannot be decoded -/

theorem header_read_none_keeps_pending (c : client) (i : Nat) (eof : Bool)
    (r : shutdown_outcome) :
    (c.header_read i none eof r).correlations = c.correlations ∧
    (c.header_read i none eof r).completed = c.completed ∧
    (c.header_read i none eof r).fd = c.fd := by
  unfold client.header_read
  split
  · simp only
    unfold client.loop_check client.reads_done
    split <;> exact ⟨rfl, rfl, rfl⟩
  · exact ⟨rfl, rfl, rfl⟩

/-- C10, the code at the failing input: whenever `parse_header` yields no header,
no promise is set, the table is left as it is and the socket stays held,
whatever the state. In particular, for a connected client with request 1
pending whose stream has ended, the read loop ends without an exception, so its
completion handler does not run `fail_outstanding_futures`: the request stays
registered with its promise unset. While the stream has not ended the loop does
not even end: it awaits the next header. -/
theorem header_decode_failure_leaves_pending (c : client) (i : Nat) (eof : Bool)
    (r : shutdown_outcome) :
    ((c.header_read i none eof r).correlations = c.correlations ∧
      (c.header_read i none eof r).completed = c.completed ∧
      (c.header_read i none eof r).fd = c.fd) ∧
    ((client.init 100 16).run [.connect .ok, .connect_continue, .do_connect_continue true,
      .send ⟨0, 60⟩]).correlations = [(1, 0)] ∧
    (((client.init 100 16).run [.connect .ok, .connect_continue, .do_connect_continue true,
      .send ⟨0, 60⟩]).header_read 0 none true .ok).readers = [] ∧
    (((client.init 100 16).run [.connect .ok, .connect_continue, .do_connect_continue true,
      .send ⟨0, 60⟩]).header_read 0 none true .ok).correlations = [(1, 0)] ∧
    (((client.init 100 16).run [.connect .ok, .connect_continue, .do_connect_continue true,
      .send ⟨0, 60⟩]).header_read 0 none true .ok).completed = [] ∧
    (((client.init 100 16).run [.connect .ok, .connect_continue, .do_connect_continue true,
      .send ⟨0, 60⟩]).header_read 0 none true .ok).fd =
      some { id := 0, input_shut := false, output_shut := false } ∧
    (((client.init 100 16).run [.connect .ok, .connect_continue, .do_connect_continue true,
      .send ⟨0, 60⟩]).header_read 0 none true .ok).probe =
      [.connection_established, .header_corrupted, .connection_closed] ∧
    (((client.init 100 16).run [.connect .ok, .connect_continue, .do_connect_continue true,
      .send ⟨0, 60⟩]).header_read 0 none false .ok).readers = [.awaiting_header] :=
  ⟨header_read_none_keeps_pending c i eof r, by decide⟩

/-! ## A colliding correlation id -/

/-- C11, as amended: when the next id, `_correlation_idx + 1` in `uint32_t`
arithmetic, is already a key of the table and the send gets past the connection
check (valid connection, open gate), `send` fails with the doubly-registered
error, which is not the not-connected error, tells the probe
`client_correlation_error`, picks no other id, and leaves the counter, the
table and the output stream as they were; no promise is created and no write is
started. On a connection that is not valid or with a closed gate the
not-connected error comes first and nothing changes, the probe included. -/
theorem collision_is_fail_fast (c : client) (b : netbuf) (p : Nat)
    (hf : find c.correlations ((c.correlation_idx + 1) % u32) = some p) :
    (c.is_valid = true → c.dispatch_gate.is_closed = false →
      (c.send b).1 = .failed "Invalid client state. Doubly registered correlation_id" ∧
      (c.send b).1 ≠ .failed "cannot send payload with invalid connection" ∧
      (c.send b).2.probe = c.probe ++ [probe_event.client_correlation_error] ∧
      (c.send b).2.correlation_idx = c.correlation_idx ∧
      (c.send b).2.correlations = c.correlations ∧
      (c.send b).2.out = c.out ∧
      (c.send b).2.writes = c.writes ∧
      (c.send b).2.next_promise = c.next_promise ∧
      (c.send b).2.completed = c.completed) ∧
    ((c.is_valid = false ∨ c.dispatch_gate.is_closed = true) →
      c.send b = (.failed "cannot send payload with invalid connection", c)) := by
  refine ⟨?_, fun h => send_invalid c b h⟩
  intro hv hg
  rw [send_collision c b hv hg p hf]
  refine ⟨rfl, ?_, rfl, rfl, rfl, rfl, rfl, rfl, rfl⟩
  intro h
  simp only [send_result.failed.injEq] at h
  exact absurd h (by decide)

/-- Witness for C11 as amended: two calls of `connect()` overlap; the socket of the
first arrives, two requests are registered under ids 1 and 2, and the socket of
the second arrives and resets the counter. The next id, 1, is a key, the
connection is valid and the gate open: `send` fails fast and writes nothing. -/
theorem collision_is_fail_fast_witness :
    find ((client.init 100 16).run [.connect .ok, .connect_continue, .connect .ok,
      .connect_continue, .do_connect_continue true, .send ⟨0, 60⟩, .send ⟨0, 60⟩,
      .do_connect_continue true]).correlations ((0 + 1) % u32) = some 0 ∧
    (((client.init 100 16).run [.connect .ok, .connect_continue, .connect .ok,
      .connect_continue, .do_connect_continue true, .send ⟨0, 60⟩, .send ⟨0, 60⟩,
      .do_connect_continue true]).send ⟨0, 60⟩).1 =
      .failed "Invalid client state. Doubly registered correlation_id" ∧
    (((client.init 100 16).run [.connect .ok, .connect_continue, .connect .ok,
      .connect_continue, .do_connect_continue true, .send ⟨0, 60⟩, .send ⟨0, 60⟩,
      .do_connect_continue true]).send ⟨0, 60⟩).2.out = [] :=
  ⟨by decide,
   ((collision_is_fail_fast
     ((client.init 100 16).run [.connect .ok, .connect_continue, .connect .ok,
       .connect_continue, .do_connect_continue true, .send ⟨0, 60⟩, .send ⟨0, 60⟩,
       .do_connect_continue true]) ⟨0, 60⟩ 0 (by decide)).1 (by decide) (by decide)).1,
   ((collision_is_fail_fast
     ((client.init 100 16).run [.connect .ok, .connect_continue, .connect .ok,
       .connect_continue, .do_connect_continue true, .send ⟨0, 60⟩, .send ⟨0, 60⟩,
       .do_connect_continue true]) ⟨0, 60⟩ 0 (by decide)).1 (by decide)
       (by decide)).2.2.2.2.2.1⟩

/-- Counterexample to C11 as stated: in the state of the witness the peer closes
the stream and the first read loop reads the end of it. The next id, 1, is
still a key of the table, but the connection is no longer valid: `send` fails
with the not-connected error, not with the doubly-registered one, and the probe
is not told. The same holds where the counter has wrapped around: it stands at
`2^32 - 1`, id 0 is still outstanding and the stream has ended. -/
theorem collision_is_fail_fast_counterexample :
    find ((client.init 100 16).run [.connect .ok, .connect_continue, .connect .ok,
      .connect_continue, .do_connect_continue true, .send ⟨0, 60⟩, .send ⟨0, 60⟩,
      .do_connect_continue true, .header_read 0 none true .ok]).correlations
      ((((client.init 100 16).run [.connect .ok, .connect_continue, .connect .ok,
      .connect_continue, .do_connect_continue true, .send ⟨0, 60⟩, .send ⟨0, 60⟩,
      .do_connect_continue true, .header_read 0 none true .ok]).correlation_idx + 1) % u32) =
      some 0 ∧
    (((client.init 100 16).run [.connect .ok, .connect_continue, .connect .ok,
      .connect_continue, .do_connect_continue true, .send ⟨0, 60⟩, .send ⟨0, 60⟩,
      .do_connect_continue true, .header_read 0 none true .ok]).send ⟨0, 60⟩).1 =
      .failed "cannot send payload with invalid connection" ∧
    (((client.init 100 16).run [.connect .ok, .connect_continue, .connect .ok,
      .connect_continue, .do_connect_continue true, .send ⟨0, 60⟩, .send ⟨0, 60⟩,
      .do_connect_continue true, .header_read 0 none true .ok]).send ⟨0, 60⟩).1 ≠
      .failed "Invalid client state. Doubly registered correlation_id" ∧
    probe_event.client_correlation_error ∉
      (((client.init 100 16).run [.connect .ok, .connect_continue, .connect .ok,
      .connect_continue, .do_connect_continue true, .send ⟨0, 60⟩, .send ⟨0, 60⟩,
      .do_connect_continue true, .header_read 0 none true .ok]).send ⟨0, 60⟩).2.probe ∧
    find [(0, 7)] ((4294967295 + 1) % u32) = some 7 ∧
    ({ (client.init 100 16).connect_awaited .ok [] true with
        correlation_idx := 4294967295
        correlations := [(0, 7)]
        in_eof := true } : client).send ⟨0, 60⟩ =
      (.failed "cannot send payload with invalid connection",
       { (client.init 100 16).connect_awaited .ok [] true with
        correlation_idx := 4294967295
        correlations := [(0, 7)]
        in_eof := true }) := by
  decide

/-! ## The collision branch -/

theorem connect_continue_table (c : client) :
    c.connect_continue.2.correlation_idx = c.correlation_idx ∧
    c.connect_continue.2.correlations = c.correlations := by
  unfold client.connect_continue client.do_connect
  split
  · split <;> exact ⟨rfl, rfl⟩
  · split
    · split <;> exact ⟨rfl, rfl⟩
    · exact ⟨rfl, rfl⟩

theorem do_connect_continue_table (c : client) (net : Bool) :
    (c.do_connect_continue net).2.correlations = c.correlations ∧
    ((event.do_connect_continue net).connects c = true →
      (c.do_connect_continue net).2.correlation_idx = 0) ∧
    ((event.do_connect_continue net).connects c = false →
      (c.do_connect_continue net).2.correlation_idx = c.correlation_idx) := by
  unfold client.do_connect_continue
  simp only [event.connects]
  split
  · rename_i h0
    simp [h0]
  · rename_i h0
    have hpos : 0 < c.connecting := Nat.pos_of_ne_zero h0
    split
    · rename_i hn
      have : net = false := by simpa using hn
      simp [this]
    · rename_i hn
      have : net = true := by simpa using hn
      split <;> simp [this, hpos]

theorem idx_keys_step (c : client) (e : event) (h1 : e.connects c = false)
    (h2 : e.registers c = false) :
    (c.step e).correlation_idx = c.correlation_idx ∧
    ∀ k ∈ keys (c.step e).correlations, k ∈ keys c.correlations := by
  by_cases he : e.is_connect = false
  · obtain ⟨_, _, _, p4, _, p6⟩ := plain_step c e he h2
    exact ⟨p4, p6⟩
  · cases e with
    | connect r =>
      obtain ⟨_, _, _, s4, _⟩ := stop_conn c r
      refine ⟨s4, ?_⟩
      have : (c.connect r).correlations = [] := (fail_book c r).1
      simp only [client.step]
      rw [this]
      intro k hk
      simp [keys] at hk
    | connect_continue =>
      obtain ⟨t1, t2⟩ := connect_continue_table c
      simp only [client.step]
      rw [t1, t2]
      exact ⟨rfl, fun k hk => hk⟩
    | do_connect_continue net =>
      obtain ⟨t1, _, t3⟩ := do_connect_continue_table c net
      simp only [client.step]
      rw [t1, t3 h1]
      exact ⟨rfl, fun k hk => hk⟩
    | _ => simp [event.is_connect] at he

theorem ids_in_range_step (c : client) (e : event) (n : Nat) (ho : c.orderly)
    (h : n < u32 → c.correlation_idx = n ∧
      ∀ k ∈ keys c.correlations, 1 ≤ k ∧ k ≤ c.correlation_idx) :
    (if e.connects c then 0 else if e.registers c then n + 1 else n) < u32 →
      (c.step e).correlation_idx =
        (if e.connects c then 0 else if e.registers c then n + 1 else n) ∧
      ∀ k ∈ keys (c.step e).correlations, 1 ≤ k ∧ k ≤ (c.step e).correlation_idx := by
  by_cases hc : e.connects c = true
  · simp only [hc, if_true]
    intro _
    cases e with
    | do_connect_continue net =>
      obtain ⟨t1, t2, _⟩ := do_connect_continue_table c net
      have hpos : 0 < c.connecting := by
        simp only [event.connects, Bool.and_eq_true, decide_eq_true_eq] at hc
        exact hc.2
      simp only [client.step]
      rw [t1, t2 hc, (ho.2.2.2 hpos).2]
      refine ⟨rfl, ?_⟩
      intro k hk
      simp [keys] at hk
    | _ => simp [event.connects] at hc
  · simp only [hc]
    by_cases hr : e.registers c = true
    · simp only [hr, if_true, Bool.false_eq_true, if_false]
      intro hn
      cases e with
      | send b =>
        rcases send_cases c with h1 | ⟨hv, hgo, p, hf⟩ | ⟨hv, hgo, hf⟩
        · simp [event.registers, send_invalid c b h1] at hr
        · simp [event.registers, send_collision c b hv hgo p hf] at hr
        · obtain ⟨hidx, hkeys⟩ := h (by omega)
          simp only [client.step]
          rw [send_fresh c b hv hgo hf]
          simp only
          have hmod : (c.correlation_idx + 1) % u32 = n + 1 := by
            rw [hidx]
            exact Nat.mod_eq_of_lt hn
          rw [hmod]
          refine ⟨rfl, ?_⟩
          intro k hk
          simp only [keys, List.map_append, List.map_cons, List.map_nil, List.mem_append,
            List.mem_singleton] at hk
          rcases hk with hk | hk
          · have := hkeys k hk
            omega
          · omega
      | _ => simp [event.registers] at hr
    · simp only [hr, Bool.false_eq_true, if_false]
      intro hn
      obtain ⟨hidx, hkeys⟩ := h hn
      obtain ⟨f1, f2⟩ := idx_keys_step c e (by simpa using hc) (by simpa using hr)
      rw [f1]
      exact ⟨hidx, fun k hk => hkeys k (f2 k hk)⟩

theorem ids_in_range_run (es : List event) (c : client) (n : Nat) (ho : c.orderly)
    (hs : c.sequential es = true)
    (h : n < u32 → c.correlation_idx = n ∧
      ∀ k ∈ keys c.correlations, 1 ≤ k ∧ k ≤ c.correlation_idx) :
    c.sends_since_connect n es < u32 →
      (c.run es).correlation_idx = c.sends_since_connect n es ∧
      ∀ k ∈ keys (c.run es).correlations, 1 ≤ k ∧ k ≤ (c.run es).correlation_idx := by
  induction es generalizing c n with
  | nil => exact h
  | cons e rest ih =>
    simp only [client.sequential, Bool.and_eq_true] at hs
    exact ih (c.step e) _ (orderly_step c e ho hs.1) hs.2 (ids_in_range_step c e n ho h)

/-- C14, as amended: in every state reached from a new client by any sequence of
events in which no `connect()` is called while another is in flight and fewer
than `2^32 - 1` sends have succeeded since a network connect last handed over a
socket, `_correlation_idx` is the number of those sends, every key `k` of the
table satisfies `1 ≤ k ≤ _correlation_idx`, so `_correlation_idx + 1` is not a
key, `send` does not take the doubly-registered branch, and the id a successful
send assigns is `_correlation_idx + 1`. -/
theorem collision_unreachable (m hs : Nat) (es : List event) (b : netbuf)
    (hseq : (client.init m hs).sequential es = true)
    (hn : (client.init m hs).sends_since_connect 0 es < u32 - 1) :
    ((client.init m hs).run es).correlation_idx =
      (client.init m hs).sends_since_connect 0 es ∧
    (∀ k ∈ keys ((client.init m hs).run es).correlations,
      1 ≤ k ∧ k ≤ ((client.init m hs).run es).correlation_idx) ∧
    find ((client.init m hs).run es).correlations
      ((((client.init m hs).run es).correlation_idx + 1) % u32) = none ∧
    (((client.init m hs).run es).send b).1 ≠
      .failed "Invalid client state. Doubly registered correlation_id" ∧
    (∀ idx p, (((client.init m hs).run es).send b).1 = .pending idx p →
      idx = ((client.init m hs).run es).correlation_idx + 1) := by
  obtain ⟨hidx, hkeys⟩ := ids_in_range_run es (client.init m hs) 0 (orderly_init m hs) hseq
    (fun _ => ⟨rfl, fun k hk => by simp [client.init, keys] at hk⟩) (by omega)
  generalize (client.init m hs).sends_since_connect 0 es = n at *
  generalize (client.init m hs).run es = c at *
  have hmod : (c.correlation_idx + 1) % u32 = c.correlation_idx + 1 :=
    Nat.mod_eq_of_lt (by omega)
  have hfree : find c.correlations ((c.correlation_idx + 1) % u32) = none := by
    rw [hmod, find_eq_none_iff]
    intro hk
    have := hkeys _ hk
    omega
  refine ⟨hidx, hkeys, hfree, ?_, ?_⟩
  · rcases send_cases c with h1 | ⟨hv, hg, p, hf⟩ | ⟨hv, hg, hf⟩
    · rw [send_invalid c b h1]
      intro h
      simp only [send_result.failed.injEq] at h
      exact absurd h (by decide)
    · rw [hfree] at hf
      cases hf
    · rw [send_fresh c b hv hg hf]
      intro h
      cases h
  · intro idx p hres
    rcases send_cases c with h1 | ⟨hv, hg, q, hf⟩ | ⟨hv, hg, hf⟩
    · rw [send_invalid c b h1] at hres
      cases hres
    · rw [hfree] at hf
      cases hf
    · rw [send_fresh c b hv hg hf] at hres
      simp only [send_result.pending.injEq] at hres
      rw [← hres.1, hmod]

/-- Witness for C14 as amended: after connect, two sends, one reply and a second,
awaited connect followed by one send, one send has succeeded since the last
connect; the counter is 1, the only key is 1, and the next send gets id 2. -/
theorem collision_unreachable_witness :
    (client.init 100 16).sequential [.connect .ok, .connect_continue,
      .do_connect_continue true, .send ⟨0, 60⟩, .send ⟨0, 60⟩, .dispatch ⟨5, 1, 0⟩,
      .connect .ok, .run_leave, .run_leave, .write_done true, .write_done true,
      .header_read 0 none true .ok, .connect_continue, .do_connect_continue true,
      .send ⟨0, 60⟩] = true ∧
    (client.init 100 16).sends_since_connect 0 [.connect .ok, .connect_continue,
      .do_connect_continue true, .send ⟨0, 60⟩, .send ⟨0, 60⟩, .dispatch ⟨5, 1, 0⟩,
      .connect .ok, .run_leave, .run_leave, .write_done true, .write_done true,
      .header_read 0 none true .ok, .connect_continue, .do_connect_continue true,
      .send ⟨0, 60⟩] = 1 ∧
    ((client.init 100 16).run [.connect .ok, .connect_continue,
      .do_connect_continue true, .send ⟨0, 60⟩, .send ⟨0, 60⟩, .dispatch ⟨5, 1, 0⟩,
      .connect .ok, .run_leave, .run_leave, .write_done true, .write_done true,
      .header_read 0 none true .ok, .connect_continue, .do_connect_continue true,
      .send ⟨0, 60⟩]).correlation_idx = 1 ∧
    keys ((client.init 100 16).run [.connect .ok, .connect_continue,
      .do_connect_continue true, .send ⟨0, 60⟩, .send ⟨0, 60⟩, .dispatch ⟨5, 1, 0⟩,
      .connect .ok, .run_leave, .run_leave, .write_done true, .write_done true,
      .header_read 0 none true .ok, .connect_continue, .do_connect_continue true,
      .send ⟨0, 60⟩]).correlations = [1] ∧
    (((client.init 100 16).run [.connect .ok, .connect_continue,
      .do_connect_continue true, .send ⟨0, 60⟩, .send ⟨0, 60⟩, .dispatch ⟨5, 1, 0⟩,
      .connect .ok, .run_leave, .run_leave, .write_done true, .write_done true,
      .header_read 0 none true .ok, .connect_continue, .do_connect_continue true,
      .send ⟨0, 60⟩]).send ⟨0, 9⟩).1 ≠
      .failed "Invalid client state. Doubly registered correlation_id" :=
  ⟨by decide, by decide, by decide, by decide,
   (collision_unreachable 100 16 [.connect .ok, .connect_continue,
      .do_connect_continue true, .send ⟨0, 60⟩, .send ⟨0, 60⟩, .dispatch ⟨5, 1, 0⟩,
      .connect .ok, .run_leave, .run_leave, .write_done true, .write_done true,
      .header_read 0 none true .ok, .connect_continue, .do_connect_continue true,
      .send ⟨0, 60⟩] ⟨0, 9⟩ (by decide) (by decide)).2.2.2.1⟩

/-- Counterexample to C14 as stated: two calls of `connect()` overlap. The socket of
the first arrives and two sends register ids 1 and 2; then the socket of the
second arrives and `do_connect` resets the counter. No send has succeeded since
that connect, keys 1 and 2 are above the counter, the next id is a key and
`send` takes the doubly-registered branch. -/
theorem collision_unreachable_counterexample :
    (client.init 100 16).sends_since_connect 0 [.connect .ok, .connect_continue,
      .connect .ok, .connect_continue, .do_connect_continue true, .send ⟨0, 60⟩,
      .send ⟨0, 60⟩, .do_connect_continue true] = 0 ∧
    ((client.init 100 16).run [.connect .ok, .connect_continue, .connect .ok,
      .connect_continue, .do_connect_continue true, .send ⟨0, 60⟩, .send ⟨0, 60⟩,
      .do_connect_continue true]).correlation_idx = 0 ∧
    keys ((client.init 100 16).run [.connect .ok, .connect_continue, .connect .ok,
      .connect_continue, .do_connect_continue true, .send ⟨0, 60⟩, .send ⟨0, 60⟩,
      .do_connect_continue true]).correlations = [1, 2] ∧
    (((client.init 100 16).run [.connect .ok, .connect_continue, .connect .ok,
      .connect_continue, .do_connect_continue true, .send ⟨0, 60⟩, .send ⟨0, 60⟩,
      .do_connect_continue true]).send ⟨0, 9⟩).1 =
      .failed "Invalid client state. Doubly registered correlation_id" ∧
    (client.init 100 16).sequential [.connect .ok, .connect_continue, .connect .ok,
      .connect_continue, .do_connect_continue true, .send ⟨0, 60⟩, .send ⟨0, 60⟩,
      .do_connect_continue true] = false := by
  decide

end rpc

namespace kafka

theorem process_too_new (max_supported v0 : Int) (request_types : List api_support)
    (version : Int) (h : version > max_supported) (h0 : v0 ≤ max_supported) :
    process max_supported v0 request_types version =
      [.error_code .unsupported_version, .array [], .int32 0] := by
  have hv : version > v0 := by omega
  simp [process, h, hv]

theorem process_supported (max_supported v0 : Int) (request_types : List api_support)
    (version : Int) (h : version ≤ max_supported) :
    process max_supported v0 request_types version =
      v0_schema .none request_types ++ (if version > v0 then [.int32 0] else []) := by
  have hn : ¬ version > max_supported := by omega
  simp [process, hn, serialize_apis, v0_schema]

/-- C12, the code at the failing input: for every version above `max_supported`
(`v0` being a supported version) `process` writes the error code
`unsupported_version`, an empty array and then one more field, the `int32` zero
that the responses after v0 carry, so the response is not in the v0 schema; a
request of version 3 with `max_supported = 2` is answered that way. For every
version up to `max_supported` it writes the error code `none` and one
(key, min_supported, max_supported) triple per entry of `request_types`, in list
order, followed by that `int32` when the version is above `v0`. -/
theorem api_versions_too_new_not_v0 (max_supported v0 : Int)
    (request_types : List api_support) (version : Int) :
    (version > max_supported → v0 ≤ max_supported →
      process max_supported v0 request_types version =
        v0_schema .unsupported_version [] ++ [.int32 0] ∧
      process max_supported v0 request_types version ≠ v0_schema .unsupported_version []) ∧
    (version ≤ max_supported →
      process max_supported v0 request_types version =
        v0_schema .none request_types ++ (if version > v0 then [.int32 0] else [])) ∧
    process 2 0 [⟨0, 3, 7⟩, ⟨18, 0, 2⟩] 3 =
      [.error_code .unsupported_version, .array [], .int32 0] ∧
    process 2 0 [⟨0, 3, 7⟩, ⟨18, 0, 2⟩] 0 =
      [.error_code .none, .array [[0, 3, 7], [18, 0, 2]]] := by
  refine ⟨?_, process_supported max_supported v0 request_types version, by decide, by decide⟩
  intro h h0
  rw [process_too_new max_supported v0 request_types version h h0]
  exact ⟨rfl, by decide⟩

end kafka

namespace pandaproxy.client
open rpc

theorem wake_ones (ws : List Nat) (avail : Nat) (h1 : ∀ n ∈ ws, n = 1)
    (h2 : ws.length ≤ avail) : semaphore.wake avail ws = (avail - ws.length, []) := by
  induction ws generalizing avail with
  | nil => simp [semaphore.wake]
  | cons n rest ih =>
    have hn : n = 1 := h1 n (List.mem_cons_self _ _)
    subst hn
    simp only [List.length_cons] at h2
    have hle : 1 ≤ avail := by omega
    simp only [semaphore.wake, hle, if_true]
    rw [ih (avail - 1) (fun n hn => h1 n (List.mem_cons_of_mem _ hn)) (by omega)]
    simp only [List.length_cons, Prod.mk.injEq, and_true]
    omega

theorem call_idle (w : wait_or_start) (h0 : w.running = 0)
    (hl : w.lock = { available := 1, waiters := [] }) :
    w.call false = (.started, { lock := { available := 0, waiters := [] }, running := 1 }) := by
  simp [wait_or_start.call, semaphore.try_wait, hl, h0]

theorem call_idle_throws (w : wait_or_start) (h0 : w.running = 0)
    (hl : w.lock = { available := 1, waiters := [] }) :
    w.call true = (.threw, { lock := { available := 0, waiters := [] }, running := 0 }) := by
  obtain ⟨lock, running⟩ := w
  simp only at h0 hl
  subst h0 hl
  simp [wait_or_start.call, semaphore.try_wait]

theorem call_busy (w : wait_or_start) (throws : Bool) (ha : w.lock.available = 0) :
    w.call throws = (.waiting,
      { lock := { available := 0, waiters := w.lock.waiters ++ [1] }, running := w.running }) := by
  simp [wait_or_start.call, semaphore.try_wait, semaphore.wait, ha]

theorem finish_busy (w : wait_or_start) (h1 : w.running = 1) (ha : w.lock.available = 0)
    (hw : ∀ n ∈ w.lock.waiters, n = 1) :
    w.finish = { lock := { available := 1, waiters := [] }, running := 0 } := by
  simp [wait_or_start.finish, semaphore.signal, h1, ha, wake_ones _ _ hw (Nat.le_succ _)]

theorem finish_idle (w : wait_or_start) (h0 : w.running = 0) : w.finish = w := by
  simp [wait_or_start.finish, h0]

theorem mem_snoc_one (ws : List Nat) (hw : ∀ n ∈ ws, n = 1) : ∀ n ∈ ws ++ [1], n = 1 := by
  intro n hn
  rcases List.mem_append.mp hn with hn | hn
  · exact hw n hn
  · simpa using hn

/-- Once a call of the function has thrown, nothing runs, the lock has no unit and
nothing returns one: every step leaves it so. -/
theorem stuck_run (as : List action) (w : wait_or_start) (h0 : w.running = 0)
    (ha : w.lock.available = 0) :
    (w.run as).running = 0 ∧ (w.run as).lock.available = 0 := by
  induction as generalizing w with
  | nil => exact ⟨h0, ha⟩
  | cons a rest ih =>
    cases a with
    | call throws =>
      refine ih (w.step (.call throws)) ?_ ?_
      · simp only [wait_or_start.step]
        rw [call_busy w throws ha]
        exact h0
      · simp only [wait_or_start.step]
        rw [call_busy w throws ha]
    | finish failed =>
      refine ih (w.step (.finish failed)) ?_ ?_
      · simp only [wait_or_start.step]
        rw [finish_idle w h0]
        exact h0
      · simp only [wait_or_start.step]
        rw [finish_idle w h0]
        exact ha

theorem one_at_a_time_step (w : wait_or_start) (a : action) (hne : a ≠ .call true)
    (h : (w.running = 0 ∧ w.lock = { available := 1, waiters := [] }) ∨
      (w.running = 1 ∧ w.lock.available = 0 ∧ ∀ n ∈ w.lock.waiters, n = 1)) :
    ((w.step a).running = 0 ∧ (w.step a).lock = { available := 1, waiters := [] }) ∨
    ((w.step a).running = 1 ∧ (w.step a).lock.available = 0 ∧
      ∀ n ∈ (w.step a).lock.waiters, n = 1) := by
  cases a with
  | call throws =>
    cases throws with
    | true => exact absurd rfl hne
    | false =>
      simp only [wait_or_start.step]
      rcases h with ⟨h0, hl⟩ | ⟨h1, ha, hw⟩
      · rw [call_idle w h0 hl]
        exact Or.inr ⟨rfl, rfl, fun n hn => by simp at hn⟩
      · rw [call_busy w false ha]
        exact Or.inr ⟨h1, rfl, mem_snoc_one _ hw⟩
  | finish failed =>
    simp only [wait_or_start.step]
    rcases h with ⟨h0, hl⟩ | ⟨h1, ha, hw⟩
    · left
      simp [wait_or_start.finish, h0, hl]
    · rw [finish_busy w h1 ha hw]
      exact Or.inl ⟨rfl, rfl⟩

theorem one_at_a_time_run (as : List action) (w : wait_or_start)
    (hne : ∀ a ∈ as, a ≠ action.call true)
    (h : (w.running = 0 ∧ w.lock = { available := 1, waiters := [] }) ∨
      (w.running = 1 ∧ w.lock.available = 0 ∧ ∀ n ∈ w.lock.waiters, n = 1)) :
    ((w.run as).running = 0 ∧ (w.run as).lock = { available := 1, waiters := [] }) ∨
    ((w.run as).running = 1 ∧ (w.run as).lock.available = 0 ∧
      ∀ n ∈ (w.run as).lock.waiters, n = 1) := by
  induction as generalizing w with
  | nil => exact h
  | cons a rest ih =>
    exact ih (w.step a) (fun x hx => hne x (List.mem_cons_of_mem _ hx))
      (one_at_a_time_step w a (hne a (List.mem_cons_self _ _)) h)

/-- In every reachable state at most one instance runs: nothing runs and the lock
has its unit, or one instance runs, or nothing runs and the unit is gone. -/
theorem at_most_one_run (as : List action) (w : wait_or_start)
    (h : (w.running = 0 ∧ w.lock = { available := 1, waiters := [] }) ∨
      (w.running ≤ 1 ∧ w.lock.available = 0 ∧ ∀ n ∈ w.lock.waiters, n = 1)) :
    (w.run as).running ≤ 1 := by
  induction as generalizing w with
  | nil =>
    have hnil : w.run [] = w := rfl
    rw [hnil]
    rcases h with ⟨h0, _⟩ | ⟨h1, _, _⟩ <;> omega
  | cons a rest ih =>
    refine ih (w.step a) ?_
    cases a with
    | call throws =>
      simp only [wait_or_start.step]
      rcases h with ⟨h0, hl⟩ | ⟨h1, ha, hw⟩
      · cases throws with
        | true =>
          rw [call_idle_throws w h0 hl]
          exact Or.inr ⟨by simp, rfl, fun n hn => by simp at hn⟩
        | false =>
          rw [call_idle w h0 hl]
          exact Or.inr ⟨le_refl _, rfl, fun n hn => by simp at hn⟩
      · rw [call_busy w throws ha]
        exact Or.inr ⟨h1, rfl, mem_snoc_one _ hw⟩
    | finish failed =>
      simp only [wait_or_start.step]
      rcases h with ⟨h0, hl⟩ | ⟨h1, ha, hw⟩
      · rw [finish_idle w h0]
        exact Or.inl ⟨h0, hl⟩
      · by_cases h0 : w.running = 0
        · rw [finish_idle w h0]
          exact Or.inr ⟨h1, ha, hw⟩
        · rw [finish_busy w (by omega) ha hw]
          exact Or.inl ⟨rfl, rfl⟩

/-- C13, what the code does. At the failing input the first call of `operator()`
takes the unit and the function throws before it returns a future: `finally` is
never attached, so after every further sequence of calls and completions
nothing is running, the lock has no unit, and a call starts nothing and waits.
In every reachable state at most one instance of the function is running. As
long as no call of the function throws: while none is running the lock holds
one unit and nobody waits, and a call starts the function; while one is
running, a call starts nothing and queues on the lock behind the earlier
waiters; when the instance finishes, with or without an error, all waiters are
released and the lock is back to one unit with nobody waiting, so that the next
call starts the function again. -/
theorem one_at_a_time (as bs : List action) (failed throws : Bool) :
    ((wait_or_start.init.call true).1 = .threw ∧
      ((wait_or_start.init.step (.call true)).run bs).running = 0 ∧
      ((wait_or_start.init.step (.call true)).run bs).lock.available = 0 ∧
      (((wait_or_start.init.step (.call true)).run bs).call throws).1 = .waiting ∧
      (((wait_or_start.init.step (.call true)).run bs).call throws).2.running = 0) ∧
    (wait_or_start.init.run as).running ≤ 1 ∧
    ((∀ a ∈ as, a ≠ action.call true) →
      ((wait_or_start.init.run as).running = 0 →
        (wait_or_start.init.run as).lock = { available := 1, waiters := [] } ∧
        ((wait_or_start.init.run as).call false).1 = .started ∧
        ((wait_or_start.init.run as).call false).2.running = 1) ∧
      ((wait_or_start.init.run as).running = 1 →
        ((wait_or_start.init.run as).call throws).1 = .waiting ∧
        ((wait_or_start.init.run as).call throws).2.running = 1 ∧
        ((wait_or_start.init.run as).call throws).2.lock.waiters =
          (wait_or_start.init.run as).lock.waiters ++ [1] ∧
        ((wait_or_start.init.run as).step (.finish failed)).running = 0 ∧
        ((wait_or_start.init.run as).step (.finish failed)).lock =
          { available := 1, waiters := [] } ∧
        (((wait_or_start.init.run as).step (.finish failed)).call false).1 = .started)) := by
  refine ⟨?_, at_most_one_run as _ (Or.inl ⟨rfl, rfl⟩), ?_⟩
  · obtain ⟨s1, s2⟩ := stuck_run bs (wait_or_start.init.step (.call true)) rfl rfl
    refine ⟨rfl, s1, s2, ?_, ?_⟩
    · rw [call_busy _ throws s2]
    · rw [call_busy _ throws s2]
      exact s1
  · intro hne
    have h := one_at_a_time_run as wait_or_start.init hne (Or.inl ⟨rfl, rfl⟩)
    generalize wait_or_start.init.run as = w at *
    rcases h with ⟨h0, hl⟩ | ⟨h1, ha, hw⟩
    · refine ⟨?_, ?_⟩
      · intro _
        rw [call_idle w h0 hl]
        exact ⟨hl, rfl, rfl⟩
      · intro h1
        omega
    · refine ⟨?_, ?_⟩
      · intro h0
        omega
      · intro _
        simp only [wait_or_start.step]
        rw [call_busy w throws ha, finish_busy w h1 ha hw]
        exact ⟨rfl, h1, rfl, rfl, rfl, rfl⟩

end pandaproxy.client
